import Mathlib

/-!
Verification of the PSGC (Philippine Standard Geographic Code) import and
hierarchy-resolution logic of the philippine-datasets repository.

The development shallowly embeds:
* the record type `PSGCData` (src/types.ts),
* the five classification filters of `main` in
  tasks/import_psgc_data_to_neo4j.ts (lines 126-138),
* the property filtering of `importBatch` (lines 24-51),
* the five relationship-building Cypher passes of `createRelationships`
  (lines 53-110), each a cross product of two label-filtered node lists
  restricted by a segment-equality predicate,
* the hierarchy resolver of the /api/hierarchy/[psgc_code] GET handler:
  for every Region node, a shortest directed path of length 0..4 to the
  target node, whose nodes are then sorted by the fixed rank
  Region=0, Province=1, CityMunicipality=2, Barangay=SubMunicipality=3,
* the line-by-line JSONL reading of `readJSONLFile` (lines 15-22) together
  with the abort-on-exception behaviour of `main` (lines 287-290).
-/

/-- Record shape of one parsed PSGC line, mirroring the PSGCData interface of
src/types.ts.  Nullable fields become `Option`. -/
structure PSGCData where
  psgc_code : String
  name : String
  correspondence_code : String
  geographic_level : String
  old_names : Option String
  city_class : Option String
  income_classification : Option String
  urban_rural : Option String
  population_2020 : Option Int
  status : Option String
  region_code : String
  province_code : String
  municipality_code : String
  barangay_code : String
  admin_level : String
  is_region : Bool
  is_province : Bool
  is_city_municipality : Bool
  is_barangay : Bool
  is_submunicipality : Bool
deriving DecidableEq, Repr

/-- Node labels used by the importer, one per imported entity kind. -/
inductive Label
  | Region
  | Province
  | CityMunicipality
  | Barangay
  | SubMunicipality
deriving DecidableEq, Repr

/-- Filter for regions (import task line 126): `d.is_region && d.province_code === "000"`. -/
def isRegionRec (d : PSGCData) : Bool :=
  d.is_region && d.province_code == "000"

/-- Filter for provinces (line 129): `d.is_province && d.province_code !== "000" && d.municipality_code === "00"`. -/
def isProvinceRec (d : PSGCData) : Bool :=
  d.is_province && d.province_code != "000" && d.municipality_code == "00"

/-- Filter for cities and municipalities (line 132). -/
def isCityRec (d : PSGCData) : Bool :=
  d.is_city_municipality ||
    (d.municipality_code != "00" && d.barangay_code == "000" && !d.is_submunicipality)

/-- Filter for barangays (line 137): `d.is_barangay`. -/
def isBarangayRec (d : PSGCData) : Bool :=
  d.is_barangay

/-- Filter for sub-municipalities (line 138): `d.geographic_level === "SubMun"`. -/
def isSubmunRec (d : PSGCData) : Bool :=
  d.geographic_level == "SubMun"

/-- The kinds assigned to one record by the five filters, in source order.
A record can in principle land in several buckets; the classification claims
are about when exactly one bucket applies. -/
def classifyKinds (d : PSGCData) : List Label :=
  (if isRegionRec d then [Label.Region] else []) ++
  (if isProvinceRec d then [Label.Province] else []) ++
  (if isCityRec d then [Label.CityMunicipality] else []) ++
  (if isBarangayRec d then [Label.Barangay] else []) ++
  (if isSubmunRec d then [Label.SubMunicipality] else [])

/-- A graph node: the label under which the record was imported, plus the
record itself (the imported properties are all drawn from it). -/
abbrev Node := Label × PSGCData

/-- Entity import of `main` (lines 126-144 and 196-255): each of the five
filtered buckets is imported under its node label. -/
def importNodes (data : List PSGCData) : List Node :=
  (data.filter isRegionRec).map (fun d => (Label.Region, d)) ++
  (data.filter isProvinceRec).map (fun d => (Label.Province, d)) ++
  (data.filter isCityRec).map (fun d => (Label.CityMunicipality, d)) ++
  (data.filter isBarangayRec).map (fun d => (Label.Barangay, d)) ++
  (data.filter isSubmunRec).map (fun d => (Label.SubMunicipality, d))

/-- Property values stored on a node (strings or numbers; Neo4j stores the
JSON values as given). -/
inductive PropValue
  | str (s : String)
  | int (n : Int)
deriving DecidableEq, Repr

/-- Lookup of a named property on a record, as used by `importBatch`.
Absent names and null fields give `none`, which `importBatch` drops. -/
def getProp (d : PSGCData) (p : String) : Option PropValue :=
  if p == "psgc_code" then some (PropValue.str d.psgc_code)
  else if p == "name" then some (PropValue.str d.name)
  else if p == "correspondence_code" then some (PropValue.str d.correspondence_code)
  else if p == "geographic_level" then some (PropValue.str d.geographic_level)
  else if p == "old_names" then d.old_names.map PropValue.str
  else if p == "city_class" then d.city_class.map PropValue.str
  else if p == "income_classification" then d.income_classification.map PropValue.str
  else if p == "urban_rural" then d.urban_rural.map PropValue.str
  else if p == "population_2020" then d.population_2020.map PropValue.int
  else if p == "status" then d.status.map PropValue.str
  else if p == "region_code" then some (PropValue.str d.region_code)
  else if p == "province_code" then some (PropValue.str d.province_code)
  else if p == "municipality_code" then some (PropValue.str d.municipality_code)
  else if p == "barangay_code" then some (PropValue.str d.barangay_code)
  else none

/-- Derived type attribute added to cities before import (line 222):
city when geographic_level equals "City", else municipality. -/
def cityTypeOf (d : PSGCData) : String :=
  if d.geographic_level == "City" then "city" else "municipality"

/-- Property lookup for city records after the spread that adds the derived
type field (lines 220-223). -/
def getPropWithType (d : PSGCData) (p : String) : Option PropValue :=
  if p == "type" then some (PropValue.str (cityTypeOf d)) else getProp d p

/-- Property list used for regions (lines 146-156). -/
def regionProps : List String :=
  ["psgc_code", "name", "correspondence_code", "geographic_level",
   "population_2020", "region_code", "province_code", "municipality_code",
   "barangay_code"]

/-- Property list used for provinces (lines 157-167); identical to the region
list in the source. -/
def provinceProps : List String :=
  ["psgc_code", "name", "correspondence_code", "geographic_level",
   "population_2020", "region_code", "province_code", "municipality_code",
   "barangay_code"]

/-- Property list used for cities and municipalities (lines 169-182). -/
def cityProps : List String :=
  ["psgc_code", "name", "correspondence_code", "geographic_level",
   "city_class", "income_classification", "population_2020", "region_code",
   "province_code", "municipality_code", "barangay_code", "type"]

/-- Property list used for barangays, and reused verbatim for
sub-municipalities (lines 183-194 and 249). -/
def barangayProps : List String :=
  ["psgc_code", "name", "correspondence_code", "geographic_level",
   "urban_rural", "population_2020", "region_code", "province_code",
   "municipality_code", "barangay_code"]

/-- Which property list `main` passes to `importBatch` for each kind. -/
def propsFor : Label → List String
  | Label.Region => regionProps
  | Label.Province => provinceProps
  | Label.CityMunicipality => cityProps
  | Label.Barangay => barangayProps
  | Label.SubMunicipality => barangayProps

/-- Attribute filtering of `importBatch` (lines 37-48): keep exactly the
listed properties whose value is neither null nor undefined. -/
def filteredItem (l : Label) (d : PSGCData) : List (String × PropValue) :=
  (propsFor l).filterMap (fun p =>
    (match l with
     | Label.CityMunicipality => getPropWithType d p
     | _ => getProp d p).map (fun v => (p, v)))

/-- Full classification outcome for one record: the assigned kinds and, per
kind, the attribute set that would be written to the store. -/
def classifyRecord (d : PSGCData) : List (Label × List (String × PropValue)) :=
  (classifyKinds d).map (fun l => (l, filteredItem l d))

/-- Modelled from the spec (section 3 table of entity kinds): a record is
valid when exactly one source-level kind flag is set and the code segments
and geographic level agree with that kind, per the table.  This predicate is
the quantification domain of the classification-determinism claim; it is not
itself part of the source. -/
def validRecord (d : PSGCData) : Bool :=
  (d.is_region && !d.is_province && !d.is_city_municipality && !d.is_barangay &&
     !d.is_submunicipality && d.geographic_level == "Reg" &&
     d.province_code == "000" && d.municipality_code == "00" && d.barangay_code == "000") ||
  (!d.is_region && d.is_province && !d.is_city_municipality && !d.is_barangay &&
     !d.is_submunicipality && d.geographic_level == "Prov" &&
     d.province_code != "000" && d.municipality_code == "00" && d.barangay_code == "000") ||
  (!d.is_region && !d.is_province && d.is_city_municipality && !d.is_barangay &&
     !d.is_submunicipality && (d.geographic_level == "City" || d.geographic_level == "Mun") &&
     d.municipality_code != "00" && d.barangay_code == "000") ||
  (!d.is_region && !d.is_province && !d.is_city_municipality && d.is_barangay &&
     !d.is_submunicipality && d.geographic_level == "Bgy" &&
     d.province_code != "000" && d.municipality_code != "00" && d.barangay_code != "000") ||
  (!d.is_region && !d.is_province && !d.is_city_municipality && !d.is_barangay &&
     d.is_submunicipality && d.geographic_level == "SubMun" &&
     d.municipality_code != "00")

/-- Relationship types created by `createRelationships`. -/
inductive RelType
  | HAS_PROVINCE
  | HAS_CITY_MUNICIPALITY
  | HAS_BARANGAY
  | HAS_SUBMUNICIPALITY
deriving DecidableEq, Repr

/-- One directed parent-to-child edge of the property graph. -/
structure Edge where
  rel : RelType
  parent : Node
  child : Node
deriving DecidableEq, Repr

/-- Cross product of the nodes carrying label `la` with the nodes carrying
label `lb`, modelling the two juxtaposed MATCH clauses of each pass. -/
def nodePairs (ns : List Node) (la lb : Label) : List (Node × Node) :=
  (ns.filter (fun n => n.1 == la)).product (ns.filter (fun n => n.1 == lb))

/-- Common shape of each relationship pass: MATCH a parent label, MATCH a
child label, keep the pairs satisfying the WHERE predicate, CREATE one typed
edge per kept pair. -/
def matchCreate (ns : List Node) (la lb : Label) (pred : Node → Node → Bool)
    (rel : RelType) : List Edge :=
  ((nodePairs ns la lb).filter (fun ab => pred ab.1 ab.2)).map
    (fun ab => Edge.mk rel ab.1 ab.2)

/-- Pass 1 (lines 57-64): Region to Province, matching on the region segment,
with a non-trivial province segment on the child and a trivial one on the
parent. -/
def regionProvinceEdges (ns : List Node) : List Edge :=
  matchCreate ns Label.Region Label.Province
    (fun r p =>
      p.2.region_code == r.2.region_code &&
      p.2.province_code != "000" &&
      r.2.province_code == "000")
    RelType.HAS_PROVINCE

/-- Pass 2 (lines 66-75): Province to CityMunicipality, matching on region
and province segments, trivial municipality segment on the parent and
non-trivial on the child. -/
def provinceCityEdges (ns : List Node) : List Edge :=
  matchCreate ns Label.Province Label.CityMunicipality
    (fun p c =>
      c.2.region_code == p.2.region_code &&
      c.2.province_code == p.2.province_code &&
      p.2.municipality_code == "00" &&
      c.2.municipality_code != "00")
    RelType.HAS_CITY_MUNICIPALITY

/-- Pass 3 (lines 77-87): CityMunicipality to Barangay, matching on region,
province and municipality segments, trivial barangay segment on the parent
and non-trivial on the child. -/
def cityBarangayEdges (ns : List Node) : List Edge :=
  matchCreate ns Label.CityMunicipality Label.Barangay
    (fun c b =>
      b.2.region_code == c.2.region_code &&
      b.2.province_code == c.2.province_code &&
      b.2.municipality_code == c.2.municipality_code &&
      c.2.barangay_code == "000" &&
      b.2.barangay_code != "000")
    RelType.HAS_BARANGAY

/-- Pass 4 (lines 89-99): CityMunicipality to SubMunicipality, matching on
region, province and municipality segments with no barangay constraint. -/
def citySubmunEdges (ns : List Node) : List Edge :=
  matchCreate ns Label.CityMunicipality Label.SubMunicipality
    (fun c s =>
      s.2.region_code == c.2.region_code &&
      s.2.province_code == c.2.province_code &&
      s.2.municipality_code == c.2.municipality_code)
    RelType.HAS_SUBMUNICIPALITY

/-- Pass 5 (lines 101-107), the NCR special case: the Region whose region
segment is 13 gains a direct edge to every CityMunicipality whose region
segment is 13. -/
def ncrCityEdges (ns : List Node) : List Edge :=
  matchCreate ns Label.Region Label.CityMunicipality
    (fun r c =>
      r.2.region_code == "13" &&
      c.2.region_code == "13")
    RelType.HAS_CITY_MUNICIPALITY

/-- All edges produced by one run of `createRelationships`, in pass order. -/
def newEdges (ns : List Node) : List Edge :=
  regionProvinceEdges ns ++ provinceCityEdges ns ++ cityBarangayEdges ns ++
    citySubmunEdges ns ++ ncrCityEdges ns

/-- The property graph: imported nodes plus created edges. -/
structure Graph where
  nodes : List Node
  edges : List Edge
deriving DecidableEq, Repr

/-- One run of `createRelationships` (lines 53-110): every pass matches only
node properties and unconditionally CREATEs its edges, appending them to
whatever edges already exist. -/
def createRelationships (g : Graph) : Graph :=
  { g with edges := g.edges ++ newEdges g.nodes }

/-- Identifier for one of the five passes, used to talk about executing the
passes in an arbitrary order. -/
inductive PassId
  | regionProvince
  | provinceCity
  | cityBarangay
  | citySubmun
  | ncrShortcut
deriving DecidableEq, Repr

/-- The edges one pass creates, as a function of the node set only (each
pass MATCHes nodes, never edges). -/
def passEdges : PassId → List Node → List Edge
  | PassId.regionProvince => regionProvinceEdges
  | PassId.provinceCity => provinceCityEdges
  | PassId.cityBarangay => cityBarangayEdges
  | PassId.citySubmun => citySubmunEdges
  | PassId.ncrShortcut => ncrCityEdges

/-- The pass order of the source. -/
def sourcePassOrder : List PassId :=
  [PassId.regionProvince, PassId.provinceCity, PassId.cityBarangay,
   PassId.citySubmun, PassId.ncrShortcut]

/-- Sequential execution of a given sequence of passes, each appending its
created edges to the store. -/
def runPasses (order : List PassId) (g : Graph) : Graph :=
  order.foldl (fun h i => { h with edges := h.edges ++ passEdges i h.nodes }) g

/-- A freshly built graph: the classified entities, with no edges, after one
run of relationship building. -/
def buildGraph (ns : List Node) : Graph :=
  createRelationships { nodes := ns, edges := [] }

/-- Display rank of the CASE expression in the hierarchy query: Region 0,
Province 1, CityMunicipality 2, Barangay and SubMunicipality 3. -/
def rank : Label → Nat
  | Label.Region => 0
  | Label.Province => 1
  | Label.CityMunicipality => 2
  | Label.Barangay => 3
  | Label.SubMunicipality => 3

/-- Whether the graph holds a directed edge from `a` to `b`. -/
def hasEdge (g : Graph) (a b : Node) : Bool :=
  g.edges.any (fun e => e.parent == a && e.child == b)

/-- The direct successors of `a` along stored edges. -/
def edgesFrom (g : Graph) (a : Node) : List Node :=
  (g.edges.filter (fun e => e.parent == a)).map (fun e => e.child)

/-- All directed paths that start at `a` and use at most `k` edges,
each given as its node list. -/
def pathsFrom (g : Graph) (a : Node) : Nat → List (List Node)
  | 0 => [[a]]
  | k + 1 =>
      [a] :: (edgesFrom g a).flatMap (fun b => (pathsFrom g b k).map (fun p => a :: p))

/-- Keep the shorter of an already chosen path and a new candidate. -/
def shorterPick (acc : Option (List Node)) (p : List Node) : Option (List Node) :=
  match acc with
  | none => some p
  | some q => if p.length < q.length then some p else some q

/-- The shortestPath MATCH of the hierarchy query for one Region row and the
target: some shortest directed path with between 0 and 4 edges when one
exists, none otherwise (the row is then dropped). -/
def shortestPathRT (g : Graph) (r t : Node) : Option (List Node) :=
  ((pathsFrom g r 4).filter (fun p => p.getLast? == some t)).foldl shorterPick none

/-- The nodes matched by `MATCH (r:Region)`. -/
def regionsOf (g : Graph) : List Node :=
  g.nodes.filter (fun n => n.1 == Label.Region)

/-- The nodes matched by the unlabelled target MATCH clause, which selects
every node whose psgc_code equals the requested code. -/
def targetsOf (g : Graph) (code : String) : List Node :=
  g.nodes.filter (fun n => n.2.psgc_code == code)

/-- All row results of the hierarchy query before ordering: for every target
and every region, the nodes of the found shortest path, concatenated. -/
def resolveRows (g : Graph) (code : String) : List Node :=
  (targetsOf g code).flatMap (fun t =>
    (regionsOf g).flatMap (fun r => (shortestPathRT g r t).getD []))

/-- The ORDER BY sortOrder step of the hierarchy query. -/
def sortNodes (l : List Node) : List Node :=
  l.insertionSort (fun a b => rank a.1 ≤ rank b.1)

/-- Outcome of the hierarchy GET handler: a 200 hierarchy, a 404 not-found,
or a 500 failure (the catch branch, reachable only through store errors). -/
inductive ResolveResult
  | ok (hierarchy : List Node)
  | notFound
  | failed (msg : String)
deriving DecidableEq, Repr

/-- The hierarchy resolver (routes/api/hierarchy/[psgc_code] GET, lines
87-121 of the handler source): run the query, answer 404 when it returns no
rows and 200 with the rank-sorted rows otherwise. -/
def resolve (g : Graph) (code : String) : ResolveResult :=
  let hierarchy := sortNodes (resolveRows g code)
  if hierarchy.isEmpty then ResolveResult.notFound else ResolveResult.ok hierarchy

/-- Segment shape expected of each imported kind (section 3 table of the
data model): trivial and non-trivial segments per level.  The region filter
of the importer already forces the region shape; the remaining shapes hold
of correctly classified source records and appear here as the
well-formedness hypothesis of the graph-level claims. -/
def shapeOK : Node → Bool
  | (Label.Region, d) =>
      d.province_code == "000" && d.municipality_code == "00" && d.barangay_code == "000"
  | (Label.Province, d) =>
      d.province_code != "000" && d.municipality_code == "00" && d.barangay_code == "000"
  | (Label.CityMunicipality, d) =>
      d.municipality_code != "00" && d.barangay_code == "000"
  | (Label.Barangay, d) =>
      d.province_code != "000" && d.municipality_code != "00" && d.barangay_code != "000"
  | (Label.SubMunicipality, d) =>
      d.municipality_code != "00"

/-- The PSGC code is the concatenation of the four fixed-width segments
(section 3: four segments concatenated into a single code). -/
def codeIsConcat (n : Node) : Bool :=
  n.2.psgc_code ==
    n.2.region_code ++ n.2.province_code ++ n.2.municipality_code ++ n.2.barangay_code

/-- Every non-region entity has the entity its kind attaches to: provinces a
region with the same region segment, non-NCR cities a province with matching
region and province segments, NCR cities the NCR region, barangays and
sub-municipalities a city with matching region, province and municipality
segments. -/
def parentRequirement (ns : List Node) (n : Node) : Bool :=
  match n.1 with
  | Label.Region => true
  | Label.Province =>
      ns.any (fun r => r.1 == Label.Region && r.2.region_code == n.2.region_code)
  | Label.CityMunicipality =>
      if n.2.region_code == "13" then
        ns.any (fun r => r.1 == Label.Region && r.2.region_code == "13")
      else
        ns.any (fun p => p.1 == Label.Province &&
          p.2.region_code == n.2.region_code && p.2.province_code == n.2.province_code)
  | Label.Barangay =>
      ns.any (fun c => c.1 == Label.CityMunicipality &&
        c.2.region_code == n.2.region_code && c.2.province_code == n.2.province_code &&
        c.2.municipality_code == n.2.municipality_code)
  | Label.SubMunicipality =>
      ns.any (fun c => c.1 == Label.CityMunicipality &&
        c.2.region_code == n.2.region_code && c.2.province_code == n.2.province_code &&
        c.2.municipality_code == n.2.municipality_code)

/-- NCR has no provinces: no imported Province carries region segment 13. -/
def noNCRProvince (ns : List Node) : Bool :=
  ns.all (fun p => !(p.1 == Label.Province && p.2.region_code == "13"))

/-- Well-formedness of a classified entity set: pairwise distinct codes,
table-conformant segment shapes, codes equal to the segment concatenation,
all required parents present, and no NCR province.  This is the fully and
freshly importable entity set over which the graph claims quantify. -/
def WellFormed (ns : List Node) : Prop :=
  (ns.map (fun n => n.2.psgc_code)).Nodup ∧
  (∀ n ∈ ns, shapeOK n = true) ∧
  (∀ n ∈ ns, codeIsConcat n = true) ∧
  (∀ n ∈ ns, parentRequirement ns n = true) ∧
  noNCRProvince ns = true

instance (ns : List Node) : Decidable (WellFormed ns) := by
  unfold WellFormed; infer_instance

/-- Whether consecutive elements of a node list are joined by stored edges. -/
def isChain (g : Graph) : List Node → Bool
  | [] => true
  | [_] => true
  | a :: b :: rest => hasEdge g a b && isChain g (b :: rest)

/-- Sequential parse of the non-blank lines, modelling Array.prototype.map
with a throwing callback: the first parse failure aborts the whole map. -/
def parseLines (parse : String → Except String PSGCData) :
    List String → Except String (List PSGCData)
  | [] => Except.ok []
  | l :: rest =>
      match parse l with
      | Except.error e => Except.error e
      | Except.ok d =>
          match parseLines parse rest with
          | Except.error e => Except.error e
          | Except.ok ds => Except.ok (d :: ds)

/-- Line reading of `readJSONLFile` (lines 15-22): split into lines, drop
blank lines, JSON-parse each remaining line.  The parse function abstracts
JSON.parse; a parse exception aborts the map, exactly as a thrown exception
aborts Array.prototype.map. -/
def readJSONL (parse : String → Except String PSGCData) (lines : List String) :
    Except String (List PSGCData) :=
  parseLines parse (lines.filter (fun l => l.toList.any (fun c => !c.isWhitespace)))

/-- Outcome of one import run at the record-processing level. -/
inductive ImportOutcome
  | success (nodes : List Node)
  | aborted (msg : String)
deriving DecidableEq, Repr

/-- The record-level control flow of `main` (lines 112-293): read and parse
the JSONL file inside the try block; any exception reaches the catch, which
logs the failure and exits with code 1, importing nothing; otherwise the
parsed records are classified and imported. -/
def runImport (parse : String → Except String PSGCData) (lines : List String) :
    ImportOutcome :=
  match readJSONL parse lines with
  | Except.error e => ImportOutcome.aborted e
  | Except.ok data => ImportOutcome.success (importNodes data)

/-! Generic list helpers used throughout the development. -/

theorem filter_eq_single {α : Type} {l : List α} {p : α → Bool} {x : α}
    (hnd : l.Nodup) (hx : x ∈ l) (hpx : p x = true)
    (huniq : ∀ y ∈ l, p y = true → y = x) : l.filter p = [x] := by
  induction l with
  | nil => cases hx
  | cons a l ih =>
    rcases List.nodup_cons.mp hnd with ⟨hna, hndl⟩
    rcases List.mem_cons.mp hx with h | h
    · subst h
      have hnil : l.filter p = [] := by
        apply List.filter_eq_nil_iff.mpr
        intro y hy hpy
        exact absurd (huniq y (List.mem_cons_of_mem _ hy) hpy ▸ hy) hna
      simp [List.filter_cons, hpx, hnil]
    · have hpa : p a = false := by
        cases hcase : p a with
        | false => rfl
        | true =>
          exact absurd (huniq a (List.mem_cons_self a l) hcase ▸ h) hna
      have := ih hndl h (fun y hy hpy => huniq y (List.mem_cons_of_mem _ hy) hpy)
      simp [List.filter_cons, hpa, this]

theorem flatMap_eq_single {α β : Type} {l : List α} {f : α → List β} {x : α}
    (hnd : l.Nodup) (hx : x ∈ l)
    (hother : ∀ y ∈ l, y ≠ x → f y = []) : l.flatMap f = f x := by
  induction l with
  | nil => cases hx
  | cons a l ih =>
    rcases List.nodup_cons.mp hnd with ⟨hna, hndl⟩
    rcases List.mem_cons.mp hx with h | h
    · subst h
      have hnil : l.flatMap f = [] := by
        apply List.flatMap_eq_nil_iff.mpr
        intro y hy
        exact hother y (List.mem_cons_of_mem _ hy) (fun hya => hna (hya ▸ hy))
      simp [List.flatMap_cons, hnil]
    · have hfa : f a = [] := hother a (List.mem_cons_self a l)
        (fun hax => hna (hax ▸ h))
      have := ih hndl h (fun y hy hyx => hother y (List.mem_cons_of_mem _ hy) hyx)
      simp [List.flatMap_cons, hfa, this]

theorem foldl_shorterPick_some {l : List (List Node)} {p : List Node}
    (hall : ∀ q ∈ l, q = p) : l.foldl shorterPick (some p) = some p := by
  induction l with
  | nil => rfl
  | cons a l ih =>
    have ha : a = p := hall a (List.mem_cons_self a l)
    subst ha
    have : shorterPick (some a) a = some a := by simp [shorterPick]
    rw [List.foldl_cons, this]
    exact ih (fun q hq => hall q (List.mem_cons_of_mem _ hq))

theorem foldl_shorterPick_all_eq {l : List (List Node)} {p : List Node}
    (hne : l ≠ []) (hall : ∀ q ∈ l, q = p) : l.foldl shorterPick none = some p := by
  cases l with
  | nil => exact absurd rfl hne
  | cons a l =>
    have ha : a = p := hall a (List.mem_cons_self a l)
    subst ha
    rw [List.foldl_cons]
    exact foldl_shorterPick_some (fun q hq => hall q (List.mem_cons_of_mem _ hq))

/-! Membership characterisations of the relationship passes. -/

theorem mem_matchCreate {ns : List Node} {la lb : Label} {pred : Node → Node → Bool}
    {rel : RelType} {e : Edge} :
    e ∈ matchCreate ns la lb pred rel ↔
      ∃ a b : Node, a ∈ ns ∧ a.1 = la ∧ b ∈ ns ∧ b.1 = lb ∧ pred a b = true ∧
        e = Edge.mk rel a b := by
  constructor
  · intro he
    simp only [matchCreate, List.mem_map, List.mem_filter] at he
    obtain ⟨⟨a, b⟩, ⟨hmem, hcond⟩, rfl⟩ := he
    simp only [nodePairs, List.pair_mem_product, List.mem_filter, beq_iff_eq] at hmem
    exact ⟨a, b, hmem.1.1, hmem.1.2, hmem.2.1, hmem.2.2, hcond, rfl⟩
  · rintro ⟨a, b, ha, hla, hb, hlb, hpred, rfl⟩
    simp only [matchCreate, List.mem_map, List.mem_filter]
    refine ⟨(a, b), ⟨?_, hpred⟩, rfl⟩
    simp only [nodePairs, List.pair_mem_product, List.mem_filter, beq_iff_eq]
    exact ⟨⟨ha, hla⟩, hb, hlb⟩

theorem child_label_of_mem_matchCreate {ns : List Node} {la lb : Label}
    {pred : Node → Node → Bool} {rel : RelType} {e : Edge}
    (he : e ∈ matchCreate ns la lb pred rel) :
    e.child.1 = lb ∧ e.parent.1 = la ∧ e.parent ∈ ns ∧ e.child ∈ ns := by
  obtain ⟨a, b, ha, hla, hb, hlb, _, rfl⟩ := mem_matchCreate.mp he
  exact ⟨hlb, hla, ha, hb⟩

/-! Consequences of well-formedness. -/

theorem wf_nodes_nodup {ns : List Node} (h : WellFormed ns) : ns.Nodup :=
  h.1.of_map

theorem eq_of_code_eq {ns : List Node} (h : WellFormed ns) {a b : Node}
    (ha : a ∈ ns) (hb : b ∈ ns) (hc : a.2.psgc_code = b.2.psgc_code) : a = b :=
  List.inj_on_of_nodup_map h.1 ha hb hc

theorem eq_of_key_eq {ns : List Node} (h : WellFormed ns) {a b : Node}
    (ha : a ∈ ns) (hb : b ∈ ns)
    (h1 : a.2.region_code = b.2.region_code)
    (h2 : a.2.province_code = b.2.province_code)
    (h3 : a.2.municipality_code = b.2.municipality_code)
    (h4 : a.2.barangay_code = b.2.barangay_code) : a = b := by
  have hca := h.2.2.1 a ha
  have hcb := h.2.2.1 b hb
  simp only [codeIsConcat, beq_iff_eq] at hca hcb
  exact eq_of_code_eq h ha hb (by rw [hca, hcb, h1, h2, h3, h4])

theorem shape_region {ns : List Node} (h : WellFormed ns) {a : Node}
    (ha : a ∈ ns) (hl : a.1 = Label.Region) :
    a.2.province_code = "000" ∧ a.2.municipality_code = "00" ∧
      a.2.barangay_code = "000" := by
  have hs := h.2.1 a ha
  obtain ⟨l, d⟩ := a
  cases hl
  simpa only [shapeOK, Bool.and_eq_true, beq_iff_eq, and_assoc] using hs

theorem shape_province {ns : List Node} (h : WellFormed ns) {a : Node}
    (ha : a ∈ ns) (hl : a.1 = Label.Province) :
    a.2.province_code ≠ "000" ∧ a.2.municipality_code = "00" ∧
      a.2.barangay_code = "000" := by
  have hs := h.2.1 a ha
  obtain ⟨l, d⟩ := a
  cases hl
  simpa only [shapeOK, Bool.and_eq_true, beq_iff_eq, bne_iff_ne, and_assoc] using hs

theorem shape_city {ns : List Node} (h : WellFormed ns) {a : Node}
    (ha : a ∈ ns) (hl : a.1 = Label.CityMunicipality) :
    a.2.municipality_code ≠ "00" ∧ a.2.barangay_code = "000" := by
  have hs := h.2.1 a ha
  obtain ⟨l, d⟩ := a
  cases hl
  simpa only [shapeOK, Bool.and_eq_true, beq_iff_eq, bne_iff_ne, and_assoc] using hs

theorem shape_barangay {ns : List Node} (h : WellFormed ns) {a : Node}
    (ha : a ∈ ns) (hl : a.1 = Label.Barangay) :
    a.2.province_code ≠ "000" ∧ a.2.municipality_code ≠ "00" ∧
      a.2.barangay_code ≠ "000" := by
  have hs := h.2.1 a ha
  obtain ⟨l, d⟩ := a
  cases hl
  simpa only [shapeOK, Bool.and_eq_true, beq_iff_eq, bne_iff_ne, and_assoc] using hs

theorem region_unique {ns : List Node} (h : WellFormed ns) {a b : Node}
    (ha : a ∈ ns) (hla : a.1 = Label.Region) (hb : b ∈ ns) (hlb : b.1 = Label.Region)
    (hr : a.2.region_code = b.2.region_code) : a = b := by
  obtain ⟨pa, ma, ba⟩ := shape_region h ha hla
  obtain ⟨pb, mb, bb⟩ := shape_region h hb hlb
  exact eq_of_key_eq h ha hb hr (by rw [pa, pb]) (by rw [ma, mb]) (by rw [ba, bb])

theorem province_unique {ns : List Node} (h : WellFormed ns) {a b : Node}
    (ha : a ∈ ns) (hla : a.1 = Label.Province) (hb : b ∈ ns) (hlb : b.1 = Label.Province)
    (hr : a.2.region_code = b.2.region_code)
    (hp : a.2.province_code = b.2.province_code) : a = b := by
  obtain ⟨_, ma, ba⟩ := shape_province h ha hla
  obtain ⟨_, mb, bb⟩ := shape_province h hb hlb
  exact eq_of_key_eq h ha hb hr hp (by rw [ma, mb]) (by rw [ba, bb])

theorem city_unique {ns : List Node} (h : WellFormed ns) {a b : Node}
    (ha : a ∈ ns) (hla : a.1 = Label.CityMunicipality)
    (hb : b ∈ ns) (hlb : b.1 = Label.CityMunicipality)
    (hr : a.2.region_code = b.2.region_code)
    (hp : a.2.province_code = b.2.province_code)
    (hm : a.2.municipality_code = b.2.municipality_code) : a = b := by
  obtain ⟨_, ba⟩ := shape_city h ha hla
  obtain ⟨_, bb⟩ := shape_city h hb hlb
  exact eq_of_key_eq h ha hb hr hp hm (by rw [ba, bb])

theorem no_ncr_province {ns : List Node} (h : WellFormed ns) {p : Node}
    (hp : p ∈ ns) (hl : p.1 = Label.Province) : p.2.region_code ≠ "13" := by
  intro hr
  have hall := h.2.2.2.2
  simp only [noNCRProvince, List.all_eq_true] at hall
  have := hall p hp
  simp [hl, hr] at this

/-! Characterisation of incoming edges, by child label. -/

theorem edge_facts {ns : List Node} {e : Edge} (he : e ∈ newEdges ns) :
    e.parent ∈ ns ∧ e.child ∈ ns ∧ rank e.parent.1 < rank e.child.1 ∧
      e.child.1 ≠ Label.Region := by
  simp only [newEdges, List.mem_append, regionProvinceEdges, provinceCityEdges,
    cityBarangayEdges, citySubmunEdges, ncrCityEdges] at he
  rcases he with ((((he | he) | he) | he) | he) <;>
    obtain ⟨hcl, hpl, hpm, hcm⟩ := child_label_of_mem_matchCreate he <;>
    exact ⟨hpm, hcm, by rw [hcl, hpl]; decide, by rw [hcl]; decide⟩

theorem incoming_of_province {ns : List Node} {e : Edge} (he : e ∈ newEdges ns)
    (hl : e.child.1 = Label.Province) :
    ∃ r, r ∈ ns ∧ r.1 = Label.Region ∧
      r.2.region_code = e.child.2.region_code ∧
      e = Edge.mk RelType.HAS_PROVINCE r e.child := by
  simp only [newEdges, List.mem_append, regionProvinceEdges, provinceCityEdges,
    cityBarangayEdges, citySubmunEdges, ncrCityEdges] at he
  rcases he with ((((he | he) | he) | he) | he)
  · obtain ⟨a, b, ha, hla, hb, hlb, hpe, rfl⟩ := mem_matchCreate.mp he
    simp only [Bool.and_eq_true, beq_iff_eq, bne_iff_ne] at hpe
    exact ⟨a, ha, hla, hpe.1.1.symm, rfl⟩
  · have hcl := (child_label_of_mem_matchCreate he).1; simp [hl] at hcl
  · have hcl := (child_label_of_mem_matchCreate he).1; simp [hl] at hcl
  · have hcl := (child_label_of_mem_matchCreate he).1; simp [hl] at hcl
  · have hcl := (child_label_of_mem_matchCreate he).1; simp [hl] at hcl

theorem incoming_of_city {ns : List Node} {e : Edge} (he : e ∈ newEdges ns)
    (hl : e.child.1 = Label.CityMunicipality) :
    (∃ p, p ∈ ns ∧ p.1 = Label.Province ∧
      p.2.region_code = e.child.2.region_code ∧
      p.2.province_code = e.child.2.province_code ∧
      e = Edge.mk RelType.HAS_CITY_MUNICIPALITY p e.child) ∨
    (∃ r, r ∈ ns ∧ r.1 = Label.Region ∧ r.2.region_code = "13" ∧
      e.child.2.region_code = "13" ∧
      e = Edge.mk RelType.HAS_CITY_MUNICIPALITY r e.child) := by
  simp only [newEdges, List.mem_append, regionProvinceEdges, provinceCityEdges,
    cityBarangayEdges, citySubmunEdges, ncrCityEdges] at he
  rcases he with ((((he | he) | he) | he) | he)
  · have hcl := (child_label_of_mem_matchCreate he).1; simp [hl] at hcl
  · obtain ⟨a, b, ha, hla, hb, hlb, hpe, rfl⟩ := mem_matchCreate.mp he
    simp only [Bool.and_eq_true, beq_iff_eq, bne_iff_ne] at hpe
    exact Or.inl ⟨a, ha, hla, hpe.1.1.1.symm, hpe.1.1.2.symm, rfl⟩
  · have hcl := (child_label_of_mem_matchCreate he).1; simp [hl] at hcl
  · have hcl := (child_label_of_mem_matchCreate he).1; simp [hl] at hcl
  · obtain ⟨a, b, ha, hla, hb, hlb, hpe, rfl⟩ := mem_matchCreate.mp he
    simp only [Bool.and_eq_true, beq_iff_eq, bne_iff_ne] at hpe
    exact Or.inr ⟨a, ha, hla, hpe.1, hpe.2, rfl⟩

theorem incoming_of_barangay {ns : List Node} {e : Edge} (he : e ∈ newEdges ns)
    (hl : e.child.1 = Label.Barangay) :
    ∃ c, c ∈ ns ∧ c.1 = Label.CityMunicipality ∧
      c.2.region_code = e.child.2.region_code ∧
      c.2.province_code = e.child.2.province_code ∧
      c.2.municipality_code = e.child.2.municipality_code ∧
      e = Edge.mk RelType.HAS_BARANGAY c e.child := by
  simp only [newEdges, List.mem_append, regionProvinceEdges, provinceCityEdges,
    cityBarangayEdges, citySubmunEdges, ncrCityEdges] at he
  rcases he with ((((he | he) | he) | he) | he)
  · have hcl := (child_label_of_mem_matchCreate he).1; simp [hl] at hcl
  · have hcl := (child_label_of_mem_matchCreate he).1; simp [hl] at hcl
  · obtain ⟨a, b, ha, hla, hb, hlb, hpe, rfl⟩ := mem_matchCreate.mp he
    simp only [Bool.and_eq_true, beq_iff_eq, bne_iff_ne] at hpe
    exact ⟨a, ha, hla, hpe.1.1.1.1.symm, hpe.1.1.1.2.symm, hpe.1.1.2.symm, rfl⟩
  · have hcl := (child_label_of_mem_matchCreate he).1; simp [hl] at hcl
  · have hcl := (child_label_of_mem_matchCreate he).1; simp [hl] at hcl

theorem incoming_of_submun {ns : List Node} {e : Edge} (he : e ∈ newEdges ns)
    (hl : e.child.1 = Label.SubMunicipality) :
    ∃ c, c ∈ ns ∧ c.1 = Label.CityMunicipality ∧
      c.2.region_code = e.child.2.region_code ∧
      c.2.province_code = e.child.2.province_code ∧
      c.2.municipality_code = e.child.2.municipality_code ∧
      e = Edge.mk RelType.HAS_SUBMUNICIPALITY c e.child := by
  simp only [newEdges, List.mem_append, regionProvinceEdges, provinceCityEdges,
    cityBarangayEdges, citySubmunEdges, ncrCityEdges] at he
  rcases he with ((((he | he) | he) | he) | he)
  · have hcl := (child_label_of_mem_matchCreate he).1; simp [hl] at hcl
  · have hcl := (child_label_of_mem_matchCreate he).1; simp [hl] at hcl
  · have hcl := (child_label_of_mem_matchCreate he).1; simp [hl] at hcl
  · obtain ⟨a, b, ha, hla, hb, hlb, hpe, rfl⟩ := mem_matchCreate.mp he
    simp only [Bool.and_eq_true, beq_iff_eq, bne_iff_ne] at hpe
    exact ⟨a, ha, hla, hpe.1.1.symm, hpe.1.2.symm, hpe.2.symm, rfl⟩
  · have hcl := (child_label_of_mem_matchCreate he).1; simp [hl] at hcl

theorem incoming_parent_eq {ns : List Node} (h : WellFormed ns) {e f : Edge}
    (he : e ∈ newEdges ns) (hf : f ∈ newEdges ns) (hc : e.child = f.child) :
    e.parent = f.parent := by
  obtain ⟨_, hcmem, _, hcnr⟩ := edge_facts he
  cases hcl : e.child.1 with
  | Region => exact absurd hcl hcnr
  | Province =>
    obtain ⟨r1, hr1, hlr1, hc1, hee⟩ := incoming_of_province he hcl
    obtain ⟨r2, hr2, hlr2, hc2, hfe⟩ := incoming_of_province hf (hc ▸ hcl)
    have : r1 = r2 := region_unique h hr1 hlr1 hr2 hlr2 (by rw [hc1, hc2, hc])
    rw [hee, hfe, this]
  | CityMunicipality =>
    rcases incoming_of_city he hcl with ⟨p1, hp1, hlp1, hr1, hq1, hee⟩ |
        ⟨r1, hr1, hlr1, hc1, hn1, hee⟩ <;>
      rcases incoming_of_city hf (hc ▸ hcl) with ⟨p2, hp2, hlp2, hr2, hq2, hfe⟩ |
        ⟨r2, hr2, hlr2, hc2, hn2, hfe⟩
    · have : p1 = p2 := province_unique h hp1 hlp1 hp2 hlp2
        (by rw [hr1, hr2, hc]) (by rw [hq1, hq2, hc])
      rw [hee, hfe, this]
    · exact absurd (by rw [hr1, hc]; exact hn2) (no_ncr_province h hp1 hlp1)
    · exact absurd (by rw [hr2, ← hc]; exact hn1) (no_ncr_province h hp2 hlp2)
    · have : r1 = r2 := region_unique h hr1 hlr1 hr2 hlr2 (by rw [hc1, hc2])
      rw [hee, hfe, this]
  | Barangay =>
    obtain ⟨c1, hcm1, hlc1, h11, h12, h13, hee⟩ := incoming_of_barangay he hcl
    obtain ⟨c2, hcm2, hlc2, h21, h22, h23, hfe⟩ := incoming_of_barangay hf (hc ▸ hcl)
    have : c1 = c2 := city_unique h hcm1 hlc1 hcm2 hlc2
      (by rw [h11, h21, hc]) (by rw [h12, h22, hc]) (by rw [h13, h23, hc])
    rw [hee, hfe, this]
  | SubMunicipality =>
    obtain ⟨c1, hcm1, hlc1, h11, h12, h13, hee⟩ := incoming_of_submun he hcl
    obtain ⟨c2, hcm2, hlc2, h21, h22, h23, hfe⟩ := incoming_of_submun hf (hc ▸ hcl)
    have : c1 = c2 := city_unique h hcm1 hlc1 hcm2 hlc2
      (by rw [h11, h21, hc]) (by rw [h12, h22, hc]) (by rw [h13, h23, hc])
    rw [hee, hfe, this]

/-! Existence of the parent edge for each non-region kind. -/

theorem province_parent {ns : List Node} (h : WellFormed ns) {p : Node}
    (hp : p ∈ ns) (hl : p.1 = Label.Province) :
    ∃ r, r ∈ ns ∧ r.1 = Label.Region ∧ r.2.region_code = p.2.region_code ∧
      Edge.mk RelType.HAS_PROVINCE r p ∈ newEdges ns := by
  have hreq := h.2.2.2.1 p hp
  have hsp := shape_province h hp hl
  obtain ⟨l, d⟩ := p
  cases hl
  simp only [parentRequirement, List.any_eq_true, Bool.and_eq_true, beq_iff_eq] at hreq
  obtain ⟨r, hr, hlr, hrc⟩ := hreq
  have hsr := shape_region h hr hlr
  refine ⟨r, hr, hlr, hrc, ?_⟩
  simp only [newEdges, List.mem_append]
  left; left; left; left
  rw [regionProvinceEdges]
  apply mem_matchCreate.mpr
  refine ⟨r, (Label.Province, d), hr, hlr, hp, rfl, ?_, rfl⟩
  simp [hrc, hsp.1, hsr.1]

theorem city_parent {ns : List Node} (h : WellFormed ns) {c : Node}
    (hc : c ∈ ns) (hl : c.1 = Label.CityMunicipality) :
    (c.2.region_code = "13" ∧ ∃ r, r ∈ ns ∧ r.1 = Label.Region ∧
       r.2.region_code = "13" ∧
       Edge.mk RelType.HAS_CITY_MUNICIPALITY r c ∈ newEdges ns) ∨
    (c.2.region_code ≠ "13" ∧ ∃ p, p ∈ ns ∧ p.1 = Label.Province ∧
       p.2.region_code = c.2.region_code ∧
       p.2.province_code = c.2.province_code ∧
       Edge.mk RelType.HAS_CITY_MUNICIPALITY p c ∈ newEdges ns) := by
  have hreq := h.2.2.2.1 c hc
  have hsc := shape_city h hc hl
  obtain ⟨l, d⟩ := c
  cases hl
  by_cases h13 : d.region_code = "13"
  · left
    refine ⟨h13, ?_⟩
    simp only [parentRequirement, h13, if_pos, beq_self_eq_true, if_true,
      List.any_eq_true, Bool.and_eq_true, beq_iff_eq] at hreq
    obtain ⟨r, hr, hlr, hrc⟩ := hreq
    refine ⟨r, hr, hlr, hrc, ?_⟩
    simp only [newEdges, List.mem_append]
    right
    rw [ncrCityEdges]
    apply mem_matchCreate.mpr
    refine ⟨r, (Label.CityMunicipality, d), hr, hlr, hc, rfl, ?_, rfl⟩
    simp [hrc, h13]
  · right
    refine ⟨h13, ?_⟩
    simp only [parentRequirement] at hreq
    rw [if_neg (by simpa using h13)] at hreq
    simp only [List.any_eq_true, Bool.and_eq_true, beq_iff_eq, and_assoc] at hreq
    obtain ⟨p, hpmem, hlp, hrc, hpc⟩ := hreq
    have hspv := shape_province h hpmem hlp
    refine ⟨p, hpmem, hlp, hrc, hpc, ?_⟩
    simp only [newEdges, List.mem_append]
    left; left; left; right
    rw [provinceCityEdges]
    apply mem_matchCreate.mpr
    refine ⟨p, (Label.CityMunicipality, d), hpmem, hlp, hc, rfl, ?_, rfl⟩
    simp [hrc, hpc, hspv.2.1, hsc.1]

theorem barangay_parent {ns : List Node} (h : WellFormed ns) {b : Node}
    (hb : b ∈ ns) (hl : b.1 = Label.Barangay) :
    ∃ c, c ∈ ns ∧ c.1 = Label.CityMunicipality ∧
      c.2.region_code = b.2.region_code ∧
      c.2.province_code = b.2.province_code ∧
      c.2.municipality_code = b.2.municipality_code ∧
      Edge.mk RelType.HAS_BARANGAY c b ∈ newEdges ns := by
  have hreq := h.2.2.2.1 b hb
  have hsb := shape_barangay h hb hl
  obtain ⟨l, d⟩ := b
  cases hl
  simp only [parentRequirement, List.any_eq_true, Bool.and_eq_true, beq_iff_eq,
    and_assoc] at hreq
  obtain ⟨c, hcm, hlc, hr, hp, hm⟩ := hreq
  have hsc := shape_city h hcm hlc
  refine ⟨c, hcm, hlc, hr, hp, hm, ?_⟩
  simp only [newEdges, List.mem_append]
  left; left; right
  rw [cityBarangayEdges]
  apply mem_matchCreate.mpr
  refine ⟨c, (Label.Barangay, d), hcm, hlc, hb, rfl, ?_, rfl⟩
  simp [hr, hp, hm, hsc.2, hsb.2.2]

theorem submun_parent {ns : List Node} (h : WellFormed ns) {s : Node}
    (hs : s ∈ ns) (hl : s.1 = Label.SubMunicipality) :
    ∃ c, c ∈ ns ∧ c.1 = Label.CityMunicipality ∧
      c.2.region_code = s.2.region_code ∧
      c.2.province_code = s.2.province_code ∧
      c.2.municipality_code = s.2.municipality_code ∧
      Edge.mk RelType.HAS_SUBMUNICIPALITY c s ∈ newEdges ns := by
  have hreq := h.2.2.2.1 s hs
  obtain ⟨l, d⟩ := s
  cases hl
  simp only [parentRequirement, List.any_eq_true, Bool.and_eq_true, beq_iff_eq,
    and_assoc] at hreq
  obtain ⟨c, hcm, hlc, hr, hp, hm⟩ := hreq
  refine ⟨c, hcm, hlc, hr, hp, hm, ?_⟩
  simp only [newEdges, List.mem_append]
  left; right
  rw [citySubmunEdges]
  apply mem_matchCreate.mpr
  refine ⟨c, (Label.SubMunicipality, d), hcm, hlc, hs, rfl, ?_, rfl⟩
  simp [hr, hp, hm]

/-! Paths and chains in the built graph. -/

theorem buildGraph_edges {ns : List Node} : (buildGraph ns).edges = newEdges ns := by
  simp [buildGraph, createRelationships]

theorem buildGraph_nodes {ns : List Node} : (buildGraph ns).nodes = ns := rfl

theorem hasEdge_iff {g : Graph} {a b : Node} :
    hasEdge g a b = true ↔ ∃ e, e ∈ g.edges ∧ e.parent = a ∧ e.child = b := by
  simp [hasEdge, List.any_eq_true, Bool.and_eq_true, beq_iff_eq, and_assoc]

theorem mem_edgesFrom {g : Graph} {a b : Node} :
    b ∈ edgesFrom g a ↔ hasEdge g a b = true := by
  rw [hasEdge_iff]
  constructor
  · intro hb
    rcases List.mem_map.mp hb with ⟨e, hef, rfl⟩
    rcases List.mem_filter.mp hef with ⟨he, hpa⟩
    exact ⟨e, he, beq_iff_eq.mp hpa, rfl⟩
  · rintro ⟨e, he, hpa, rfl⟩
    exact List.mem_map.mpr ⟨e, List.mem_filter.mpr ⟨he, beq_iff_eq.mpr hpa⟩, rfl⟩

theorem isChain_cons_cons {g : Graph} {a b : Node} {rest : List Node} :
    isChain g (a :: b :: rest) = (hasEdge g a b && isChain g (b :: rest)) := rfl

theorem mem_pathsFrom {g : Graph} {k : Nat} : ∀ {a : Node} {p : List Node},
    p ∈ pathsFrom g a k ↔
      (p.head? = some a ∧ isChain g p = true ∧ p.length ≤ k + 1) := by
  induction k with
  | zero =>
    intro a p
    simp only [pathsFrom, List.mem_singleton]
    constructor
    · rintro rfl; exact ⟨rfl, rfl, by simp⟩
    · rintro ⟨hh, _, hl⟩
      cases p with
      | nil => cases hh
      | cons x q =>
        have hx : x = a := Option.some.inj hh
        cases q with
        | nil => rw [hx]
        | cons y r => simp at hl
  | succ k ih =>
    intro a p
    simp only [pathsFrom, List.mem_cons, List.mem_flatMap, List.mem_map]
    constructor
    · rintro (rfl | ⟨b, hb, q, hq, rfl⟩)
      · exact ⟨rfl, rfl, by simp⟩
      · obtain ⟨hh, hc, hl⟩ := ih.mp hq
        cases q with
        | nil => cases hh
        | cons b0 r =>
          have hb0 : b0 = b := Option.some.inj hh
          have he : hasEdge g a b0 = true := by
            rw [hb0]; exact mem_edgesFrom.mp hb
          refine ⟨rfl, ?_, by simpa using Nat.succ_le_succ hl⟩
          rw [isChain_cons_cons, he, hc]; rfl
    · rintro ⟨hh, hc, hl⟩
      cases p with
      | nil => cases hh
      | cons x q =>
        have hx : x = a := Option.some.inj hh
        subst hx
        cases q with
        | nil => exact Or.inl rfl
        | cons b r =>
          right
          rw [isChain_cons_cons, Bool.and_eq_true] at hc
          refine ⟨b, mem_edgesFrom.mpr hc.1, b :: r,
            ih.mpr ⟨rfl, hc.2, ?_⟩, rfl⟩
          simpa using Nat.le_of_succ_le_succ hl

theorem isChain_concat {g : Graph} : ∀ {l : List Node} {a : Node},
    isChain g (l ++ [a]) = true ↔
      (l = [] ∨ (isChain g l = true ∧
        ∃ b, l.getLast? = some b ∧ hasEdge g b a = true)) := by
  intro l
  induction l with
  | nil => intro a; simp [isChain]
  | cons x q ih =>
    intro a
    cases q with
    | nil =>
      simp only [List.cons_append, List.nil_append, isChain_cons_cons,
        Bool.and_eq_true]
      constructor
      · rintro ⟨hxa, _⟩
        exact Or.inr ⟨rfl, x, rfl, hxa⟩
      · rintro (h0 | ⟨_, b, hb, hba⟩)
        · cases h0
        · have hbx : x = b := Option.some.inj hb
          exact ⟨hbx ▸ hba, rfl⟩
    | cons y r =>
      constructor
      · intro hch
        have hch' : (hasEdge g x y && isChain g ((y :: r) ++ [a])) = true := hch
        rw [Bool.and_eq_true] at hch'
        rcases hch' with ⟨hxy, hrest⟩
        rcases ih.mp hrest with h0 | ⟨hcyr, b, hb, hba⟩
        · cases h0
        · refine Or.inr ⟨?_, b, ?_, hba⟩
          · rw [isChain_cons_cons, hxy, hcyr]; rfl
          · rw [List.getLast?_cons_cons]; exact hb
      · rintro (h0 | ⟨hc, b, hb, hba⟩)
        · cases h0
        · rw [isChain_cons_cons, Bool.and_eq_true] at hc
          have hrest : isChain g ((y :: r) ++ [a]) = true :=
            ih.mpr (Or.inr ⟨hc.2, b, by rw [← List.getLast?_cons_cons (a := x)]; exact hb, hba⟩)
          have : (hasEdge g x y && isChain g ((y :: r) ++ [a])) = true := by
            rw [hc.1, hrest]; rfl
          exact this

theorem region_chain_unique {ns : List Node} (h : WellFormed ns) :
    ∀ (n : Nat) (p q : List Node) (t : Node),
      p.length ≤ n →
      isChain (buildGraph ns) p = true → isChain (buildGraph ns) q = true →
      p.getLast? = some t → q.getLast? = some t →
      (∀ x, p.head? = some x → x.1 = Label.Region) →
      (∀ x, q.head? = some x → x.1 = Label.Region) →
      p = q := by
  intro n
  induction n with
  | zero =>
    intro p q t hlen _ _ hlastp _ _ _
    rcases List.eq_nil_or_concat p with rfl | ⟨p0, tp, rfl⟩
    · cases hlastp
    · rw [List.concat_eq_append] at hlen
      simp at hlen
  | succ n ih =>
    intro p q t hlen hcp hcq hlastp hlastq hhp hhq
    rcases List.eq_nil_or_concat p with rfl | ⟨p0, tp, rfl⟩
    · cases hlastp
    rcases List.eq_nil_or_concat q with rfl | ⟨q0, tq, rfl⟩
    · cases hlastq
    rw [List.concat_eq_append] at hlen hcp hlastp hhp ⊢
    rw [List.concat_eq_append] at hcq hlastq hhq ⊢
    have htp : tp = t := Option.some.inj ((List.getLast?_concat p0).symm.trans hlastp)
    have htq : tq = t := Option.some.inj ((List.getLast?_concat q0).symm.trans hlastq)
    have htpq : tp = tq := htp.trans htq.symm
    rcases isChain_concat.mp hcp with hp0 | ⟨hcp0, b, hbl, hbe⟩
    · subst hp0
      rcases isChain_concat.mp hcq with hq0 | ⟨_, b2, hbl2, hbe2⟩
      · subst hq0; rw [htpq]
      · have htr : tp.1 = Label.Region := hhp tp rfl
        rw [htpq] at htr
        rcases hasEdge_iff.mp hbe2 with ⟨e, he, _, hec⟩
        rw [buildGraph_edges] at he
        exact absurd (hec ▸ (edge_facts he).2.2.2) (fun hne => hne htr)
    · rcases isChain_concat.mp hcq with hq0 | ⟨hcq0, b2, hbl2, hbe2⟩
      · subst hq0
        have htr : tq.1 = Label.Region := hhq tq rfl
        rw [← htpq] at htr
        rcases hasEdge_iff.mp hbe with ⟨e, he, _, hec⟩
        rw [buildGraph_edges] at he
        exact absurd (hec ▸ (edge_facts he).2.2.2) (fun hne => hne htr)
      · rcases hasEdge_iff.mp hbe with ⟨e, he, hep, hec⟩
        rcases hasEdge_iff.mp hbe2 with ⟨f, hf, hfp, hfc⟩
        rw [buildGraph_edges] at he hf
        have hbb : b = b2 := by
          rw [← hep, ← hfp]
          exact incoming_parent_eq h he hf (by rw [hec, hfc, htpq])
        have hlen0 : p0.length ≤ n := by
          rw [List.length_append] at hlen
          simpa using Nat.le_of_succ_le_succ hlen
        have hhp0 : ∀ x, p0.head? = some x → x.1 = Label.Region := by
          intro x hx
          exact hhp x (by rw [List.head?_append, hx]; rfl)
        have hhq0 : ∀ x, q0.head? = some x → x.1 = Label.Region := by
          intro x hx
          exact hhq x (by rw [List.head?_append, hx]; rfl)
        have : p0 = q0 :=
          ih p0 q0 b hlen0 hcp0 hcq0 hbl (hbb ▸ hbl2) hhp0 hhq0
        rw [this, htpq]

theorem chain_chain' {g : Graph} : ∀ {p : List Node}, isChain g p = true →
    List.Chain' (fun a b => hasEdge g a b = true) p := by
  intro p
  induction p with
  | nil => intro _; exact List.chain'_nil
  | cons x q ih =>
    intro hc
    cases q with
    | nil => exact List.chain'_singleton x
    | cons y r =>
      rw [isChain_cons_cons, Bool.and_eq_true] at hc
      exact List.Chain'.cons hc.1 (ih hc.2)

theorem chain_pairwise_rank {ns : List Node} {p : List Node}
    (hc : isChain (buildGraph ns) p = true) :
    p.Pairwise (fun a b => rank a.1 < rank b.1) := by
  have hch : List.Chain' (fun a b => rank a.1 < rank b.1) p := by
    apply List.Chain'.imp ?_ (chain_chain' hc)
    intro a b hab
    rcases hasEdge_iff.mp hab with ⟨e, he, hep, hec⟩
    rw [buildGraph_edges] at he
    have := (edge_facts he).2.2.1
    rw [hep, hec] at this
    exact this
  haveI : IsTrans Node (fun a b => rank a.1 < rank b.1) :=
    ⟨fun _ _ _ hab hbc => Nat.lt_trans hab hbc⟩
  exact List.chain'_iff_pairwise.mp hch

theorem chain_mem_nodes {ns : List Node} : ∀ {p : List Node},
    isChain (buildGraph ns) p = true →
    (∀ x, p.head? = some x → x ∈ ns) → ∀ y ∈ p, y ∈ ns := by
  intro p
  induction p with
  | nil => intro _ _ y hy; cases hy
  | cons x q ih =>
    intro hc hh y hy
    have hx : x ∈ ns := hh x rfl
    rcases List.mem_cons.mp hy with rfl | hy
    · exact hx
    cases q with
    | nil => cases hy
    | cons b r =>
      rw [isChain_cons_cons, Bool.and_eq_true] at hc
      refine ih hc.2 ?_ y hy
      intro z hz
      have hzb : b = z := Option.some.inj hz
      rcases hasEdge_iff.mp hc.1 with ⟨e, he, _, hec⟩
      rw [buildGraph_edges] at he
      rw [← hzb, ← hec]
      exact (edge_facts he).2.1

/-! Assembling the resolver result over a well-formed built graph. -/

theorem targetsOf_eq {ns : List Node} (h : WellFormed ns) {t : Node} (ht : t ∈ ns) :
    targetsOf (buildGraph ns) t.2.psgc_code = [t] := by
  apply filter_eq_single (wf_nodes_nodup h) ht (by simp)
  intro y hy hpy
  exact eq_of_code_eq h hy ht (beq_iff_eq.mp hpy)

theorem shortestPathRT_eq_none {g : Graph} {r t : Node}
    (hnopath : ∀ q, isChain g q = true → q.head? = some r →
      q.getLast? = some t → False) :
    shortestPathRT g r t = none := by
  unfold shortestPathRT
  have hnil : (pathsFrom g r 4).filter (fun p => p.getLast? == some t) = [] := by
    apply List.filter_eq_nil_iff.mpr
    intro p hp hpt
    obtain ⟨hh, hc, _⟩ := mem_pathsFrom.mp hp
    exact absurd (beq_iff_eq.mp hpt) (fun hl => hnopath p hc hh hl)
  rw [hnil]
  rfl

theorem shortestPathRT_eq_some {g : Graph} {r t : Node} {p : List Node}
    (hc : isChain g p = true) (hh : p.head? = some r) (hl : p.getLast? = some t)
    (hlen : p.length ≤ 5)
    (huniq : ∀ q, isChain g q = true → q.head? = some r → q.getLast? = some t →
      q = p) :
    shortestPathRT g r t = some p := by
  unfold shortestPathRT
  apply foldl_shorterPick_all_eq
  · intro hnil
    have hmem : p ∈ (pathsFrom g r 4).filter (fun q => q.getLast? == some t) :=
      List.mem_filter.mpr ⟨mem_pathsFrom.mpr ⟨hh, hc, hlen⟩, by simp [hl]⟩
    rw [hnil] at hmem
    cases hmem
  · intro q hq
    rcases List.mem_filter.mp hq with ⟨hq1, hq2⟩
    obtain ⟨hqh, hqc, _⟩ := mem_pathsFrom.mp hq1
    exact huniq q hqc hqh (beq_iff_eq.mp hq2)

theorem resolve_eq_of_chain {ns : List Node} (h : WellFormed ns) {t : Node}
    (ht : t ∈ ns) {p : List Node} {r : Node}
    (hc : isChain (buildGraph ns) p = true)
    (hh : p.head? = some r) (hr : r.1 = Label.Region) (hrm : r ∈ ns)
    (hl : p.getLast? = some t) (hlen : p.length ≤ 5) :
    resolve (buildGraph ns) t.2.psgc_code = ResolveResult.ok p ∧
      p.Pairwise (fun a b => rank a.1 < rank b.1) ∧ (∀ y ∈ p, y ∈ ns) := by
  have guniq : ∀ q r', isChain (buildGraph ns) q = true → q.head? = some r' →
      r'.1 = Label.Region → q.getLast? = some t → q = p := by
    intro q r' hqc hqh hr' hql
    exact region_chain_unique h q.length q p t (le_refl _) hqc hc hql hl
      (fun x hx => by rw [hqh] at hx; exact (Option.some.inj hx) ▸ hr')
      (fun x hx => by rw [hh] at hx; exact (Option.some.inj hx) ▸ hr)
  have hne : p ≠ [] := by intro h0; rw [h0] at hh; cases hh
  have hsp : shortestPathRT (buildGraph ns) r t = some p :=
    shortestPathRT_eq_some hc hh hl hlen (fun q hqc hqh hql => guniq q r hqc hqh hr hql)
  have hroweq : resolveRows (buildGraph ns) t.2.psgc_code = p := by
    unfold resolveRows
    rw [targetsOf_eq h ht, List.flatMap_cons, List.flatMap_nil, List.append_nil]
    have hnodup : (regionsOf (buildGraph ns)).Nodup := (wf_nodes_nodup h).filter _
    have hrmem : r ∈ regionsOf (buildGraph ns) :=
      List.mem_filter.mpr ⟨hrm, by rw [hr]; rfl⟩
    rw [flatMap_eq_single hnodup hrmem ?other]
    · rw [hsp]; rfl
    case other =>
      intro y hy hyr
      have hyreg : y.1 = Label.Region :=
        beq_iff_eq.mp (List.mem_filter.mp hy).2
      have hnone : shortestPathRT (buildGraph ns) y t = none := by
        apply shortestPathRT_eq_none
        intro q hqc hqh hql
        have hqp := guniq q y hqc hqh hyreg hql
        rw [hqp, hh] at hqh
        exact hyr (Option.some.inj hqh).symm
      rw [hnone]; rfl
  have hpair := chain_pairwise_rank hc
  have hsorted : sortNodes p = p := by
    apply List.Sorted.insertionSort_eq
    exact hpair.imp (fun hab => Nat.le_of_lt hab)
  have hempty : p.isEmpty = false := by
    cases p with
    | nil => exact absurd rfl hne
    | cons a q => rfl
  refine ⟨?_, hpair, chain_mem_nodes hc
    (fun x hx => by rw [hh] at hx; exact (Option.some.inj hx) ▸ hrm)⟩
  unfold resolve
  simp only [hroweq, hsorted, hempty]
  rfl

theorem hasEdge_of_newEdges {ns : List Node} {e : Edge} (he : e ∈ newEdges ns) :
    hasEdge (buildGraph ns) e.parent e.child = true :=
  hasEdge_iff.mpr ⟨e, by rw [buildGraph_edges]; exact he, rfl, rfl⟩

theorem canonical_chain {ns : List Node} (h : WellFormed ns) {t : Node}
    (ht : t ∈ ns) :
    ∃ p r, isChain (buildGraph ns) p = true ∧ p.head? = some r ∧
      r.1 = Label.Region ∧ r ∈ ns ∧ p.getLast? = some t ∧ p.length ≤ 5 := by
  cases hlt : t.1 with
  | Region =>
    exact ⟨[t], t, rfl, rfl, hlt, ht, rfl, by simp⟩
  | Province =>
    obtain ⟨r, hrm, hlr, _, hedge⟩ := province_parent h ht hlt
    have h1 := hasEdge_of_newEdges hedge
    exact ⟨[r, t], r, by simp [isChain_cons_cons, isChain, h1], rfl, hlr, hrm,
      by simp, by simp⟩
  | CityMunicipality =>
    rcases city_parent h ht hlt with ⟨_, r, hrm, hlr, _, hedge⟩ |
        ⟨_, pr, hpm, hlp, _, _, hedge⟩
    · have h1 := hasEdge_of_newEdges hedge
      exact ⟨[r, t], r, by simp [isChain_cons_cons, isChain, h1], rfl, hlr, hrm,
        by simp, by simp⟩
    · obtain ⟨r, hrm, hlr, _, hedge0⟩ := province_parent h hpm hlp
      have h0 := hasEdge_of_newEdges hedge0
      have h1 := hasEdge_of_newEdges hedge
      exact ⟨[r, pr, t], r, by simp [isChain_cons_cons, isChain, h0, h1], rfl,
        hlr, hrm, by simp, by simp⟩
  | Barangay =>
    obtain ⟨c, hcm, hlc, _, _, _, hedgeb⟩ := barangay_parent h ht hlt
    have hb := hasEdge_of_newEdges hedgeb
    rcases city_parent h hcm hlc with ⟨_, r, hrm, hlr, _, hedge⟩ |
        ⟨_, pr, hpm, hlp, _, _, hedge⟩
    · have h1 := hasEdge_of_newEdges hedge
      exact ⟨[r, c, t], r, by simp [isChain_cons_cons, isChain, h1, hb], rfl,
        hlr, hrm, by simp, by simp⟩
    · obtain ⟨r, hrm, hlr, _, hedge0⟩ := province_parent h hpm hlp
      have h0 := hasEdge_of_newEdges hedge0
      have h1 := hasEdge_of_newEdges hedge
      exact ⟨[r, pr, c, t], r, by simp [isChain_cons_cons, isChain, h0, h1, hb],
        rfl, hlr, hrm, by simp, by simp⟩
  | SubMunicipality =>
    obtain ⟨c, hcm, hlc, _, _, _, hedgeb⟩ := submun_parent h ht hlt
    have hb := hasEdge_of_newEdges hedgeb
    rcases city_parent h hcm hlc with ⟨_, r, hrm, hlr, _, hedge⟩ |
        ⟨_, pr, hpm, hlp, _, _, hedge⟩
    · have h1 := hasEdge_of_newEdges hedge
      exact ⟨[r, c, t], r, by simp [isChain_cons_cons, isChain, h1, hb], rfl,
        hlr, hrm, by simp, by simp⟩
    · obtain ⟨r, hrm, hlr, _, hedge0⟩ := province_parent h hpm hlp
      have h0 := hasEdge_of_newEdges hedge0
      have h1 := hasEdge_of_newEdges hedge
      exact ⟨[r, pr, c, t], r, by simp [isChain_cons_cons, isChain, h0, h1, hb],
        rfl, hlr, hrm, by simp, by simp⟩

/-! Exactly-one-incoming-edge machinery. -/

theorem matchCreate_filter_child_single {ns : List Node} {la lb : Label}
    {pred : Node → Node → Bool} {rel : RelType} {t u : Node}
    (hnd : ns.Nodup) (hu : u ∈ ns) (hul : u.1 = la) (ht : t ∈ ns) (htl : t.1 = lb)
    (hpred : pred u t = true)
    (huniq : ∀ a, a ∈ ns → a.1 = la → pred a t = true → a = u) :
    (matchCreate ns la lb pred rel).filter (fun e => e.child == t) =
      [Edge.mk rel u t] := by
  unfold matchCreate
  rw [List.filter_map, List.filter_filter]
  have hpairsnd : (nodePairs ns la lb).Nodup :=
    List.Nodup.product (hnd.filter _) (hnd.filter _)
  rw [filter_eq_single (x := (u, t)) hpairsnd ?mem ?pr ?uniq]
  · rfl
  case mem =>
    exact List.pair_mem_product.mpr
      ⟨List.mem_filter.mpr ⟨hu, by rw [hul]; exact beq_self_eq_true la⟩,
       List.mem_filter.mpr ⟨ht, by rw [htl]; exact beq_self_eq_true lb⟩⟩
  case pr => simp [hpred]
  case uniq =>
    rintro ⟨a, b⟩ hab hq
    rw [Function.comp_apply, Bool.and_eq_true] at hq
    have hbt : b = t := beq_iff_eq.mp hq.1
    subst hbt
    rcases List.pair_mem_product.mp hab with ⟨ha, _⟩
    rcases List.mem_filter.mp ha with ⟨hans, hala⟩
    rw [huniq a hans (beq_iff_eq.mp hala) hq.2]

theorem matchCreate_filter_child_nil_label {ns : List Node} {la lb : Label}
    {pred : Node → Node → Bool} {rel : RelType} {t : Node}
    (hne : lb ≠ t.1) :
    (matchCreate ns la lb pred rel).filter (fun e => e.child == t) = [] := by
  apply List.filter_eq_nil_iff.mpr
  intro e he hq
  have hcl := (child_label_of_mem_matchCreate he).1
  have hct : e.child = t := beq_iff_eq.mp hq
  exact hne ((hct ▸ hcl : t.1 = lb)).symm

theorem matchCreate_filter_child_nil_pred {ns : List Node} {la lb : Label}
    {pred : Node → Node → Bool} {rel : RelType} {t : Node}
    (hnone : ∀ a, a ∈ ns → a.1 = la → pred a t ≠ true) :
    (matchCreate ns la lb pred rel).filter (fun e => e.child == t) = [] := by
  apply List.filter_eq_nil_iff.mpr
  intro e he hq
  obtain ⟨a, b, ha, hla, hb, hlb, hpred, rfl⟩ := mem_matchCreate.mp he
  have hbt : b = t := beq_iff_eq.mp hq
  subst hbt
  exact hnone a ha hla hpred

/-- C2: in a graph built by one run of relationship building over a
well-formed, correctly classified entity set, every non-Region entity has
exactly one incoming parent edge: the created-edge list filtered on that
child is a one-element list.  In particular the NCR shortcut pass never adds
a second parent to a CityMunicipality already parented by a Province, since
a well-formed set has no NCR province. -/
theorem one_incoming_parent_edge {ns : List Node} (h : WellFormed ns) {t : Node}
    (ht : t ∈ ns) (hnr : t.1 ≠ Label.Region) :
    ∃ e, (newEdges ns).filter (fun e => e.child == t) = [e] ∧
      e.child = t ∧ e.parent ∈ ns ∧ rank e.parent.1 < rank t.1 := by
  have hnd := wf_nodes_nodup h
  cases hlt : t.1 with
  | Region => exact absurd hlt hnr
  | Province =>
    obtain ⟨r, hrm, hlr, hrc, _⟩ := province_parent h ht hlt
    have hsp := shape_province h ht hlt
    have hsr := shape_region h hrm hlr
    refine ⟨Edge.mk RelType.HAS_PROVINCE r t, ?_, rfl, hrm, by rw [hlr]; decide⟩
    simp only [newEdges, regionProvinceEdges, provinceCityEdges, cityBarangayEdges,
      citySubmunEdges, ncrCityEdges, List.filter_append]
    rw [matchCreate_filter_child_single hnd hrm hlr ht hlt ?pr1 ?un1,
      matchCreate_filter_child_nil_label (by rw [hlt]; decide),
      matchCreate_filter_child_nil_label (by rw [hlt]; decide),
      matchCreate_filter_child_nil_label (by rw [hlt]; decide),
      matchCreate_filter_child_nil_label (by rw [hlt]; decide)]
    · simp
    case pr1 => simp [hrc, hsp.1, hsr.1]
    case un1 =>
      intro a ha hla hp
      simp only [Bool.and_eq_true, beq_iff_eq, bne_iff_ne] at hp
      exact region_unique h ha hla hrm hlr (by rw [← hp.1.1, hrc])
  | CityMunicipality =>
    have hsc := shape_city h ht hlt
    rcases city_parent h ht hlt with ⟨h13, r, hrm, hlr, hr13, _⟩ |
        ⟨h13, pr, hpm, hlp, hprc, hppc, _⟩
    · refine ⟨Edge.mk RelType.HAS_CITY_MUNICIPALITY r t, ?_, rfl, hrm,
        by rw [hlr]; decide⟩
      simp only [newEdges, regionProvinceEdges, provinceCityEdges, cityBarangayEdges,
        citySubmunEdges, ncrCityEdges, List.filter_append]
      rw [matchCreate_filter_child_nil_label (by rw [hlt]; decide),
        matchCreate_filter_child_nil_pred ?np2,
        matchCreate_filter_child_nil_label (by rw [hlt]; decide),
        matchCreate_filter_child_nil_label (by rw [hlt]; decide),
        matchCreate_filter_child_single hnd hrm hlr ht hlt ?pr5 ?un5]
      · simp
      case np2 =>
        intro a ha hla hp
        simp only [Bool.and_eq_true, beq_iff_eq, bne_iff_ne] at hp
        exact no_ncr_province h ha hla (by rw [← hp.1.1.1, h13])
      case pr5 => simp [hr13, h13]
      case un5 =>
        intro a ha hla hp
        simp only [Bool.and_eq_true, beq_iff_eq] at hp
        exact region_unique h ha hla hrm hlr (by rw [hp.1, hr13])
    · refine ⟨Edge.mk RelType.HAS_CITY_MUNICIPALITY pr t, ?_, rfl, hpm,
        by rw [hlp]; decide⟩
      have hspv := shape_province h hpm hlp
      simp only [newEdges, regionProvinceEdges, provinceCityEdges, cityBarangayEdges,
        citySubmunEdges, ncrCityEdges, List.filter_append]
      rw [matchCreate_filter_child_nil_label (by rw [hlt]; decide),
        matchCreate_filter_child_single hnd hpm hlp ht hlt ?pr2 ?un2,
        matchCreate_filter_child_nil_label (by rw [hlt]; decide),
        matchCreate_filter_child_nil_label (by rw [hlt]; decide),
        matchCreate_filter_child_nil_pred ?np5]
      · simp
      case pr2 => simp [hprc, hppc, hspv.2.1, hsc.1]
      case un2 =>
        intro a ha hla hp
        simp only [Bool.and_eq_true, beq_iff_eq, bne_iff_ne] at hp
        exact province_unique h ha hla hpm hlp (by rw [← hp.1.1.1, hprc])
          (by rw [← hp.1.1.2, hppc])
      case np5 =>
        intro a ha hla hp
        simp only [Bool.and_eq_true, beq_iff_eq] at hp
        exact h13 hp.2
  | Barangay =>
    obtain ⟨c, hcm, hlc, hcr, hcp, hcmun, _⟩ := barangay_parent h ht hlt
    have hsc := shape_city h hcm hlc
    have hsb := shape_barangay h ht hlt
    refine ⟨Edge.mk RelType.HAS_BARANGAY c t, ?_, rfl, hcm,
      by rw [hlc]; decide⟩
    simp only [newEdges, regionProvinceEdges, provinceCityEdges, cityBarangayEdges,
      citySubmunEdges, ncrCityEdges, List.filter_append]
    rw [matchCreate_filter_child_nil_label (by rw [hlt]; decide),
      matchCreate_filter_child_nil_label (by rw [hlt]; decide),
      matchCreate_filter_child_single hnd hcm hlc ht hlt ?pr3 ?un3,
      matchCreate_filter_child_nil_label (by rw [hlt]; decide),
      matchCreate_filter_child_nil_label (by rw [hlt]; decide)]
    · simp
    case pr3 => simp [hcr, hcp, hcmun, hsc.2, hsb.2.2]
    case un3 =>
      intro a ha hla hp
      simp only [Bool.and_eq_true, beq_iff_eq, bne_iff_ne] at hp
      exact city_unique h ha hla hcm hlc (by rw [← hp.1.1.1.1, hcr])
        (by rw [← hp.1.1.1.2, hcp]) (by rw [← hp.1.1.2, hcmun])
  | SubMunicipality =>
    obtain ⟨c, hcm, hlc, hcr, hcp, hcmun, _⟩ := submun_parent h ht hlt
    refine ⟨Edge.mk RelType.HAS_SUBMUNICIPALITY c t, ?_, rfl, hcm,
      by rw [hlc]; decide⟩
    simp only [newEdges, regionProvinceEdges, provinceCityEdges, cityBarangayEdges,
      citySubmunEdges, ncrCityEdges, List.filter_append]
    rw [matchCreate_filter_child_nil_label (by rw [hlt]; decide),
      matchCreate_filter_child_nil_label (by rw [hlt]; decide),
      matchCreate_filter_child_nil_label (by rw [hlt]; decide),
      matchCreate_filter_child_single hnd hcm hlc ht hlt ?pr4 ?un4,
      matchCreate_filter_child_nil_label (by rw [hlt]; decide)]
    · simp
    case pr4 => simp [hcr, hcp, hcmun]
    case un4 =>
      intro a ha hla hp
      simp only [Bool.and_eq_true, beq_iff_eq] at hp
      exact city_unique h ha hla hcm hlc (by rw [← hp.1.1, hcr])
        (by rw [← hp.1.2, hcp]) (by rw [← hp.2, hcmun])

/-- C1: for every entity E of a well-formed entity set, resolving the code
of E over the freshly built graph answers 200 with a sequence that ends in
E, starts at a Region, has non-decreasing display rank, and repeats no
psgc code. -/
theorem resolver_correct_on_built_graph {ns : List Node} (h : WellFormed ns)
    {t : Node} (ht : t ∈ ns) :
    ∃ l, resolve (buildGraph ns) t.2.psgc_code = ResolveResult.ok l ∧
      l.getLast? = some t ∧
      (∃ r, l.head? = some r ∧ r.1 = Label.Region) ∧
      l.Pairwise (fun a b => rank a.1 ≤ rank b.1) ∧
      (l.map (fun n => n.2.psgc_code)).Nodup := by
  obtain ⟨p, r, hc, hh, hr, hrm, hl, hlen⟩ := canonical_chain h ht
  obtain ⟨hres, hpair, hmem⟩ := resolve_eq_of_chain h ht hc hh hr hrm hl hlen
  refine ⟨p, hres, hl, ⟨r, hh, hr⟩,
    hpair.imp (fun hab => Nat.le_of_lt hab), ?_⟩
  have hnd : p.Nodup :=
    hpair.imp (fun hab he => by rw [he] at hab; exact Nat.lt_irrefl _ hab)
  exact List.Nodup.map_on
    (fun x hx y hy hxy => eq_of_code_eq h (hmem x hx) (hmem y hy) hxy) hnd

/-- C8: resolving the own code of a Region answers 200 with the one-element
sequence holding exactly that Region. -/
theorem region_self_path {ns : List Node} (h : WellFormed ns) {r : Node}
    (hr : r ∈ ns) (hlr : r.1 = Label.Region) :
    resolve (buildGraph ns) r.2.psgc_code = ResolveResult.ok [r] :=
  (resolve_eq_of_chain h hr (p := [r]) rfl rfl hlr hr rfl (by simp)).1

/-- C3: after relationship building over a well-formed entity set, every
CityMunicipality whose region segment is 13 has a direct
HAS_CITY_MUNICIPALITY edge from the Region with region segment 13, and
resolving its code answers exactly the two-element sequence of that Region
followed by the city, with no Province element. -/
theorem ncr_city_direct_region_edge_and_resolve {ns : List Node}
    (h : WellFormed ns) {c : Node} (hc : c ∈ ns)
    (hlc : c.1 = Label.CityMunicipality) (h13 : c.2.region_code = "13") :
    ∃ r, r ∈ ns ∧ r.1 = Label.Region ∧ r.2.region_code = "13" ∧
      Edge.mk RelType.HAS_CITY_MUNICIPALITY r c ∈ newEdges ns ∧
      resolve (buildGraph ns) c.2.psgc_code = ResolveResult.ok [r, c] := by
  rcases city_parent h hc hlc with ⟨_, r, hrm, hlr, hr13, hedge⟩ |
      ⟨hne13, _⟩
  · refine ⟨r, hrm, hlr, hr13, hedge, ?_⟩
    have h1 := hasEdge_of_newEdges hedge
    exact (resolve_eq_of_chain h hc (p := [r, c])
      (by simp [isChain_cons_cons, isChain, h1]) rfl hlr hrm (by simp)
      (by simp)).1
  · exact absurd h13 hne13

/-- C7: the resolver answers the structured 404 not-found result whenever
no node carries the requested code, and likewise whenever nodes carry the
code but no Region reaches any of them by a directed path within the 0..4
bound of the query; the embedded handler logic never produces the 500
failure outcome (that branch is reachable only through store-level
exceptions, which the pure query cannot raise), so in both cases the
answer is exactly not-found, never a partial sequence and never the
distinct failure constructor. -/
theorem resolver_not_found_structured (g : Graph) (code : String) :
    ((∀ n ∈ g.nodes, n.2.psgc_code ≠ code) →
      resolve g code = ResolveResult.notFound) ∧
    ((∀ t ∈ g.nodes, t.2.psgc_code = code →
        ∀ r ∈ g.nodes, r.1 = Label.Region →
          ∀ p, isChain g p = true → p.head? = some r →
            p.getLast? = some t → False) →
      resolve g code = ResolveResult.notFound) ∧
    (∀ msg, resolve g code ≠ ResolveResult.failed msg) := by
  refine ⟨?_, ?_, ?_⟩
  · intro hnone
    have htg : targetsOf g code = [] :=
      List.filter_eq_nil_iff.mpr (fun n hn hb => hnone n hn (beq_iff_eq.mp hb))
    unfold resolve resolveRows
    rw [htg]
    rfl
  · intro hunreach
    have hrows : resolveRows g code = [] := by
      unfold resolveRows
      apply List.flatMap_eq_nil_iff.mpr
      intro t ht
      rcases List.mem_filter.mp ht with ⟨htm, htc⟩
      apply List.flatMap_eq_nil_iff.mpr
      intro r hr
      rcases List.mem_filter.mp hr with ⟨hrm, hrl⟩
      have hnone : shortestPathRT g r t = none :=
        shortestPathRT_eq_none (fun q hq hh hl =>
          hunreach t htm (beq_iff_eq.mp htc) r hrm (beq_iff_eq.mp hrl) q hq hh hl)
      rw [hnone]
      rfl
    unfold resolve
    rw [hrows]
    rfl
  · intro msg
    simp only [resolve]
    split
    · exact fun hcon => ResolveResult.noConfusion hcon
    · exact fun hcon => ResolveResult.noConfusion hcon

/-- C4: starting from a freshly imported store with no edges, running the
relationship-building stage twice without clearing creates exactly twice as
many edges of every relationship type as one run creates, because every
pass unconditionally CREATEs and matches only node properties. -/
theorem relationship_building_doubles_edge_counts (g : Graph) (rt : RelType)
    (hfresh : g.edges = []) :
    (createRelationships (createRelationships g)).edges.countP
        (fun e => e.rel == rt) =
      2 * (createRelationships g).edges.countP (fun e => e.rel == rt) := by
  simp [createRelationships, hfresh, List.countP_append, Nat.two_mul]

theorem runPasses_nodes (order : List PassId) : ∀ g : Graph,
    (runPasses order g).nodes = g.nodes := by
  induction order with
  | nil => intro g; rfl
  | cons i rest ih => intro g; exact ih _

theorem runPasses_edges (order : List PassId) : ∀ g : Graph,
    (runPasses order g).edges =
      g.edges ++ order.flatMap (fun i => passEdges i g.nodes) := by
  induction order with
  | nil => intro g; simp [runPasses]
  | cons i rest ih =>
    intro g
    have h1 : runPasses (i :: rest) g =
        runPasses rest { g with edges := g.edges ++ passEdges i g.nodes } := rfl
    rw [h1, ih]
    simp [List.flatMap_cons, List.append_assoc]

theorem newEdges_eq_flatMap (ns : List Node) :
    newEdges ns = sourcePassOrder.flatMap (fun i => passEdges i ns) := by
  simp [newEdges, sourcePassOrder, passEdges, List.flatMap_cons, List.flatMap_nil]

/-- C9: no pass MATCHes edges, only nodes, so executing the five passes in
any permutation of the source order yields the same multiset of created
edges as `createRelationships`. -/
theorem passes_order_independent (order : List PassId) (g : Graph)
    (hperm : order.Perm sourcePassOrder) :
    ((runPasses order g).edges).Perm ((createRelationships g).edges) := by
  rw [runPasses_edges]
  have hcr : (createRelationships g).edges =
      g.edges ++ sourcePassOrder.flatMap (fun i => passEdges i g.nodes) := by
    simp [createRelationships, newEdges_eq_flatMap]
  rw [hcr]
  exact List.Perm.append_left _ (List.Perm.flatMap_right _ hperm)

/-- C5: every valid record, in the sense of the section 3 kind table,
satisfies exactly one of the five classification filters, so the assigned
kind is unique; and classification plus attribute filtering is a pure
function of the record, so re-classifying the same record gives the same
kind list and attribute sets. -/
theorem classification_exclusive_and_deterministic (d : PSGCData)
    (hv : validRecord d = true) :
    (∃ k, classifyKinds d = [k]) ∧ classifyRecord d = classifyRecord d := by
  refine ⟨?_, rfl⟩
  have hrs : ("Reg" : String) ≠ "SubMun" := by decide
  have hps : ("Prov" : String) ≠ "SubMun" := by decide
  have hcs : ("City" : String) ≠ "SubMun" := by decide
  have hms : ("Mun" : String) ≠ "SubMun" := by decide
  have hbs : ("Bgy" : String) ≠ "SubMun" := by decide
  unfold validRecord at hv
  simp only [Bool.or_eq_true, Bool.and_eq_true, Bool.not_eq_true', beq_iff_eq,
    bne_iff_ne, and_assoc] at hv
  rcases hv with ((((h | h) | h) | h) | h)
  · obtain ⟨hreg, hprov, hcity, hbgy, hsub, hgeo, hp, hm, hb⟩ := h
    exact ⟨Label.Region, by
      simp [classifyKinds, isRegionRec, isProvinceRec, isCityRec, isBarangayRec,
        isSubmunRec, hreg, hprov, hcity, hbgy, hsub, hgeo, hp, hm, hb, hrs]⟩
  · obtain ⟨hreg, hprov, hcity, hbgy, hsub, hgeo, hp, hm, hb⟩ := h
    exact ⟨Label.Province, by
      simp [classifyKinds, isRegionRec, isProvinceRec, isCityRec, isBarangayRec,
        isSubmunRec, hreg, hprov, hcity, hbgy, hsub, hgeo, hp, hm, hb, hps]⟩
  · obtain ⟨hreg, hprov, hcity, hbgy, hsub, hgeo, hm, hb⟩ := h
    rcases hgeo with hgeo | hgeo <;>
      exact ⟨Label.CityMunicipality, by
        simp [classifyKinds, isRegionRec, isProvinceRec, isCityRec, isBarangayRec,
          isSubmunRec, hreg, hprov, hcity, hbgy, hsub, hgeo, hm, hb, hcs, hms]⟩
  · obtain ⟨hreg, hprov, hcity, hbgy, hsub, hgeo, hp, hm, hb⟩ := h
    exact ⟨Label.Barangay, by
      simp [classifyKinds, isRegionRec, isProvinceRec, isCityRec, isBarangayRec,
        isSubmunRec, hreg, hprov, hcity, hbgy, hsub, hgeo, hp, hm, hb, hbs]⟩
  · obtain ⟨hreg, hprov, hcity, hbgy, hsub, hgeo, hm⟩ := h
    exact ⟨Label.SubMunicipality, by
      simp [classifyKinds, isRegionRec, isProvinceRec, isCityRec, isBarangayRec,
        isSubmunRec, hreg, hprov, hcity, hbgy, hsub, hgeo, hm]⟩

/-- C10: a record appears among the imported entities exactly when it is in
the batch and satisfies at least one of the five classification filters; a
record satisfying none of the filters is silently dropped, leaving the
surrounding batch import unchanged, with no error outcome. -/
theorem import_iff_some_filter (data : List PSGCData) (d : PSGCData) :
    ((∃ l, (l, d) ∈ importNodes data) ↔
      (d ∈ data ∧ (isRegionRec d || isProvinceRec d || isCityRec d ||
        isBarangayRec d || isSubmunRec d) = true)) ∧
    (∀ pre post : List PSGCData,
      (isRegionRec d || isProvinceRec d || isCityRec d || isBarangayRec d ||
        isSubmunRec d) = false →
      importNodes (pre ++ d :: post) = importNodes (pre ++ post)) := by
  constructor
  · constructor
    · rintro ⟨l, hmem⟩
      simp only [importNodes, List.mem_append, List.mem_map, List.mem_filter] at hmem
      rcases hmem with (((⟨d2, ⟨hd2, hf⟩, heq⟩ | ⟨d2, ⟨hd2, hf⟩, heq⟩) |
          ⟨d2, ⟨hd2, hf⟩, heq⟩) | ⟨d2, ⟨hd2, hf⟩, heq⟩) | ⟨d2, ⟨hd2, hf⟩, heq⟩ <;>
        · have hd2d : d2 = d := congrArg Prod.snd heq
          subst hd2d
          exact ⟨hd2, by simp [hf]⟩
    · rintro ⟨hd, hor⟩
      simp only [Bool.or_eq_true] at hor
      simp only [importNodes, List.mem_append, List.mem_map, List.mem_filter]
      rcases hor with ((((hf | hf) | hf) | hf) | hf)
      · exact ⟨Label.Region, Or.inl (Or.inl (Or.inl (Or.inl ⟨d, ⟨hd, hf⟩, rfl⟩)))⟩
      · exact ⟨Label.Province, Or.inl (Or.inl (Or.inl (Or.inr ⟨d, ⟨hd, hf⟩, rfl⟩)))⟩
      · exact ⟨Label.CityMunicipality, Or.inl (Or.inl (Or.inr ⟨d, ⟨hd, hf⟩, rfl⟩))⟩
      · exact ⟨Label.Barangay, Or.inl (Or.inr ⟨d, ⟨hd, hf⟩, rfl⟩)⟩
      · exact ⟨Label.SubMunicipality, Or.inr ⟨d, ⟨hd, hf⟩, rfl⟩⟩
  · intro pre post hall
    simp only [Bool.or_eq_false_iff] at hall
    obtain ⟨⟨⟨⟨h1, h2⟩, h3⟩, h4⟩, h5⟩ := hall
    simp [importNodes, List.filter_append, List.filter_cons, h1, h2, h3, h4, h5]

/-- A representative well-formed region record, used as the parse result of
well-formed JSONL lines in the error-handling analysis. -/
def sampleRecord : PSGCData :=
  { psgc_code := "0100000000", name := "Region I", correspondence_code := "010000000",
    geographic_level := "Reg", old_names := none, city_class := none,
    income_classification := none, urban_rural := none,
    population_2020 := some 5301139, status := none, region_code := "01",
    province_code := "000", municipality_code := "00", barangay_code := "000",
    admin_level := "Reg", is_region := true, is_province := false,
    is_city_municipality := false, is_barangay := false,
    is_submunicipality := false }

/-- Parse function modelling JSON.parse over a batch holding one malformed
line: the marked line throws, every other line parses to `sampleRecord`. -/
def parseWithBadLine (s : String) : Except String PSGCData :=
  if s == "not-json" then Except.error "SyntaxError" else Except.ok sampleRecord

theorem parseLines_error_of_mem {parse : String → Except String PSGCData} :
    ∀ {ls : List String} {l : String}, l ∈ ls → (∀ d, parse l ≠ Except.ok d) →
      ∃ msg, parseLines parse ls = Except.error msg := by
  intro ls
  induction ls with
  | nil => intro l hl _; cases hl
  | cons a rest ih =>
    intro l hl hbad
    rcases List.mem_cons.mp hl with rfl | hl
    · cases hpa : parse l with
      | error e => exact ⟨e, by simp [parseLines, hpa]⟩
      | ok dd => exact absurd hpa (hbad dd)
    · cases hpa : parse a with
      | error e => exact ⟨e, by simp [parseLines, hpa]⟩
      | ok dd =>
        obtain ⟨msg, hrec⟩ := ih hl hbad
        exact ⟨msg, by simp [parseLines, hpa, hrec]⟩

/-- C6 counterexample: a batch of three lines whose middle line is
malformed JSON is aborted wholesale by the importer: the exception from the
per-line JSON.parse reaches the top-level catch of main, which logs and
exits; no record of the batch is imported and no per-record skip happens,
contradicting the claim that only the offending record fails while the rest
of the batch continues. -/
theorem malformed_line_aborts_counterexample :
    runImport parseWithBadLine ["good-line-1", "not-json", "good-line-2"] =
      ImportOutcome.aborted "SyntaxError" ∧
    ∀ nodes, runImport parseWithBadLine ["good-line-1", "not-json", "good-line-2"] ≠
      ImportOutcome.success nodes := by
  constructor
  · rfl
  · intro nodes hcon
    rw [show runImport parseWithBadLine ["good-line-1", "not-json", "good-line-2"] =
      ImportOutcome.aborted "SyntaxError" from rfl] at hcon
    cases hcon

/-- C6 amended: when any non-blank line of the input fails to parse, the
importer aborts the whole run with that failure (the exception propagates
to the catch in main, which logs it and exits with code 1); no
record is imported, there is no ClassificationError type and no per-record
skip-and-continue.  Records that parse but have malformed segments raise no
error at all and are simply classified by the boolean filters. -/
theorem malformed_line_aborts_whole_import
    (parse : String → Except String PSGCData) (lines : List String) (l : String)
    (hl : l ∈ lines) (hnb : (l.toList.any (fun c => !c.isWhitespace)) = true)
    (hbad : ∀ d, parse l ≠ Except.ok d) :
    ∃ msg, runImport parse lines = ImportOutcome.aborted msg := by
  have hlf : l ∈ lines.filter (fun s => s.toList.any (fun c => !c.isWhitespace)) :=
    List.mem_filter.mpr ⟨hl, hnb⟩
  obtain ⟨msg, herr⟩ := parseLines_error_of_mem hlf hbad
  refine ⟨msg, ?_⟩
  unfold runImport readJSONL
  rw [herr]

/-- Helper building a record from its code fields and kind flags; the
remaining attributes are fixed defaults. -/
def testRecord (code nm geo rc pc mc bc : String)
    (fr fp fc fb fs : Bool) : PSGCData :=
  { psgc_code := code, name := nm, correspondence_code := "",
    geographic_level := geo, old_names := none, city_class := none,
    income_classification := none, urban_rural := none, population_2020 := none,
    status := none, region_code := rc, province_code := pc,
    municipality_code := mc, barangay_code := bc, admin_level := geo,
    is_region := fr, is_province := fp, is_city_municipality := fc,
    is_barangay := fb, is_submunicipality := fs }

def testRegion03 : Node :=
  (Label.Region,
    testRecord "0300000000" "Central Luzon" "Reg" "03" "000" "00" "000"
      true false false false false)

def testProvince014 : Node :=
  (Label.Province,
    testRecord "0301400000" "Bulacan" "Prov" "03" "014" "00" "000"
      false true false false false)

def testCity : Node :=
  (Label.CityMunicipality,
    testRecord "0301401000" "Angat" "Mun" "03" "014" "01" "000"
      false false true false false)

def testBarangay : Node :=
  (Label.Barangay,
    testRecord "0301401007" "Laog" "Bgy" "03" "014" "01" "007"
      false false false true false)

def testSubmun : Node :=
  (Label.SubMunicipality,
    testRecord "0301401001" "District One" "SubMun" "03" "014" "01" "001"
      false false false false true)

def testRegion13 : Node :=
  (Label.Region,
    testRecord "1300000000" "NCR" "Reg" "13" "000" "00" "000"
      true false false false false)

def testNCRCity : Node :=
  (Label.CityMunicipality,
    testRecord "1380601000" "Manila District" "City" "13" "806" "01" "000"
      false false true false false)

/-- A small well-formed entity set: one standard chain region, province,
city, barangay and sub-municipality, plus the NCR region and one NCR city. -/
def testNodes : List Node :=
  [testRegion03, testProvince014, testCity, testBarangay, testSubmun,
   testRegion13, testNCRCity]

/-- A record satisfying none of the five classification filters. -/
def strayRecord : PSGCData :=
  testRecord "9999900000" "Stray" "Mun" "99" "999" "00" "000"
    false false false false false

/-- Witness for the resolver-correctness claim at the concrete barangay of
the test entity set. -/
theorem resolver_correct_witness :
    WellFormed testNodes ∧ testBarangay ∈ testNodes ∧
    ∃ l, resolve (buildGraph testNodes) testBarangay.2.psgc_code =
        ResolveResult.ok l ∧
      l.getLast? = some testBarangay ∧
      (∃ r, l.head? = some r ∧ r.1 = Label.Region) ∧
      l.Pairwise (fun a b => rank a.1 ≤ rank b.1) ∧
      (l.map (fun n => n.2.psgc_code)).Nodup :=
  ⟨by decide, by decide,
    resolver_correct_on_built_graph (by decide) (by decide)⟩

/-- Witness for the exactly-one-incoming-edge claim at the concrete city of
the test entity set. -/
theorem one_incoming_parent_edge_witness :
    WellFormed testNodes ∧ testCity ∈ testNodes ∧ testCity.1 ≠ Label.Region ∧
    ∃ e, (newEdges testNodes).filter (fun e => e.child == testCity) = [e] ∧
      e.child = testCity ∧ e.parent ∈ testNodes ∧
      rank e.parent.1 < rank testCity.1 :=
  ⟨by decide, by decide, by decide,
    one_incoming_parent_edge (by decide) (by decide) (by decide)⟩

/-- Witness for the NCR claim at the concrete NCR city of the test entity
set. -/
theorem ncr_city_witness :
    WellFormed testNodes ∧ testNCRCity ∈ testNodes ∧
    testNCRCity.1 = Label.CityMunicipality ∧
    testNCRCity.2.region_code = "13" ∧
    ∃ r, r ∈ testNodes ∧ r.1 = Label.Region ∧ r.2.region_code = "13" ∧
      Edge.mk RelType.HAS_CITY_MUNICIPALITY r testNCRCity ∈ newEdges testNodes ∧
      resolve (buildGraph testNodes) testNCRCity.2.psgc_code =
        ResolveResult.ok [r, testNCRCity] :=
  ⟨by decide, by decide, rfl, rfl,
    ncr_city_direct_region_edge_and_resolve (by decide) (by decide) rfl rfl⟩

/-- Witness for the edge-count-doubling claim over the test entity set with
the HAS_PROVINCE relationship type. -/
theorem doubles_edge_counts_witness :
    (Graph.mk testNodes []).edges = [] ∧
    (createRelationships (createRelationships (Graph.mk testNodes []))).edges.countP
        (fun e => e.rel == RelType.HAS_PROVINCE) =
      2 * (createRelationships (Graph.mk testNodes [])).edges.countP
        (fun e => e.rel == RelType.HAS_PROVINCE) :=
  ⟨rfl, relationship_building_doubles_edge_counts (Graph.mk testNodes [])
    RelType.HAS_PROVINCE rfl⟩

/-- Witness for the classification claim at a concrete valid region
record. -/
theorem classification_witness :
    validRecord sampleRecord = true ∧
    ((∃ k, classifyKinds sampleRecord = [k]) ∧
      classifyRecord sampleRecord = classifyRecord sampleRecord) :=
  ⟨by decide, classification_exclusive_and_deterministic sampleRecord (by decide)⟩

theorem parse_bad_line_not_ok : ∀ d, parseWithBadLine "not-json" ≠ Except.ok d := by
  intro d h
  rw [show parseWithBadLine "not-json" = Except.error "SyntaxError" from rfl] at h
  cases h

/-- Witness for the amended import-abort claim at a concrete two-line batch
whose second line is malformed. -/
theorem malformed_line_aborts_witness :
    "not-json" ∈ ["good-line-1", "not-json"] ∧
    ("not-json".toList.any (fun c => !c.isWhitespace)) = true ∧
    (∀ d, parseWithBadLine "not-json" ≠ Except.ok d) ∧
    ∃ msg, runImport parseWithBadLine ["good-line-1", "not-json"] =
      ImportOutcome.aborted msg :=
  ⟨by decide, by decide, parse_bad_line_not_ok,
    malformed_line_aborts_whole_import parseWithBadLine
      ["good-line-1", "not-json"] "not-json" (by decide) (by decide)
      parse_bad_line_not_ok⟩

/-- In the edge-free store holding a region and the test barangay, no
Region reaches the barangay: an edge-free graph admits only one-node
chains, and no single node is both a Region and the code carrier. -/
theorem orphan_barangay_unreachable :
    ∀ t ∈ (Graph.mk [testRegion03, testBarangay] []).nodes,
      t.2.psgc_code = "0301401007" →
      ∀ r ∈ (Graph.mk [testRegion03, testBarangay] []).nodes,
        r.1 = Label.Region →
        ∀ p, isChain (Graph.mk [testRegion03, testBarangay] []) p = true →
          p.head? = some r → p.getLast? = some t → False := by
  intro t ht hc r hr hlr p hp hh hl
  cases p with
  | nil => cases hh
  | cons x q =>
    cases q with
    | cons y rest =>
      rw [isChain_cons_cons, Bool.and_eq_true] at hp
      have hfalse : hasEdge (Graph.mk [testRegion03, testBarangay] []) x y = true :=
        hp.1
      simp [hasEdge] at hfalse
    | nil =>
      have hx1 : x = r := Option.some.inj hh
      have hx2 : x = t := Option.some.inj hl
      have hrt : r = t := hx1.symm.trans hx2
      rcases List.mem_cons.mp ht with rfl | ht2
      · exact absurd hc (by decide)
      · rcases List.mem_cons.mp ht2 with rfl | h0
        · rcases List.mem_cons.mp hr with rfl | hr2
          · exact absurd hrt (by decide)
          · rcases List.mem_cons.mp hr2 with rfl | h0
            · exact absurd hlr (by decide)
            · cases h0
        · cases h0

/-- Witness for the not-found claim, covering both cases: the empty graph
with a code no node carries, and an edge-free graph where the test
barangay carries the requested code but no Region reaches it. -/
theorem not_found_witness :
    resolve (Graph.mk [] []) "0000000000" = ResolveResult.notFound ∧
    testBarangay ∈ (Graph.mk [testRegion03, testBarangay] []).nodes ∧
    testBarangay.2.psgc_code = "0301401007" ∧
    resolve (Graph.mk [testRegion03, testBarangay] []) "0301401007" =
      ResolveResult.notFound ∧
    (∀ msg, resolve (Graph.mk [] []) "0000000000" ≠ ResolveResult.failed msg) :=
  ⟨(resolver_not_found_structured (Graph.mk [] []) "0000000000").1
      (fun n hn => absurd hn (List.not_mem_nil n)),
    by decide, by decide,
    (resolver_not_found_structured (Graph.mk [testRegion03, testBarangay] [])
        "0301401007").2.1 orphan_barangay_unreachable,
    (resolver_not_found_structured (Graph.mk [] []) "0000000000").2.2⟩

/-- Witness for the region-self-path claim at the concrete NCR region. -/
theorem region_self_path_witness :
    WellFormed testNodes ∧ testRegion13 ∈ testNodes ∧
    testRegion13.1 = Label.Region ∧
    resolve (buildGraph testNodes) testRegion13.2.psgc_code =
      ResolveResult.ok [testRegion13] :=
  ⟨by decide, by decide, rfl,
    region_self_path (by decide) (by decide) rfl⟩

/-- Witness for the pass-order-independence claim at a concrete permutation
that swaps the first two passes, over the test entity set. -/
theorem passes_order_witness :
    ([PassId.provinceCity, PassId.regionProvince, PassId.cityBarangay,
      PassId.citySubmun, PassId.ncrShortcut].Perm sourcePassOrder) ∧
    ((runPasses [PassId.provinceCity, PassId.regionProvince, PassId.cityBarangay,
        PassId.citySubmun, PassId.ncrShortcut] (Graph.mk testNodes [])).edges).Perm
      ((createRelationships (Graph.mk testNodes [])).edges) :=
  ⟨by decide,
    passes_order_independent _ (Graph.mk testNodes []) (by decide)⟩

/-- Witness for the import-filter claim: the sample record is imported from
a singleton batch, and the stray record that satisfies no filter is dropped
without affecting the surrounding batch. -/
theorem import_iff_witness :
    (∃ l, (l, sampleRecord) ∈ importNodes [sampleRecord]) ∧
    importNodes ([sampleRecord] ++ strayRecord :: []) =
      importNodes ([sampleRecord] ++ []) :=
  ⟨(import_iff_some_filter [sampleRecord] sampleRecord).1.mpr
      ⟨by decide, by decide⟩,
    (import_iff_some_filter [sampleRecord] strayRecord).2 [sampleRecord] []
      (by decide)⟩
